import Mathlib

/-!
Verification of the XRPL canonical binary codec (xrpl_binary_codec and
xrpl_types crates): a shallow embedding of the serializer, the deserializer,
the field registry and the transaction object protocol, together with
theorems about field ordering, the variable-length prefix, field ids,
amount encoding and the OfferCreate example transaction.

Bytes are modelled as natural numbers (valid bytes are below 256); machine
integers are modelled as Nat or Int with explicit wrap-around (mod 2 ^ 64
for u64, two(s)-complement wrap for i8) at the points where the Rust code
performs casts or can overflow.  Release-mode (wrapping) semantics is used
for arithmetic overflow.
-/

/-! ### Error type (error.rs, BinaryCodecError) -/

inductive BinaryCodecError where
  | OutOfRange (msg : String)
  | FieldOrder (msg : String)
  | InvalidField (msg : String)
  | MissingField (msg : String)
  | InvalidLength (msg : String)
  | InsufficientBytes (msg : String)
deriving DecidableEq, Repr

/-- Discriminates the FieldOrder error kind on a result. -/
def isFieldOrderErr {α : Type} : Except BinaryCodecError α → Bool
  | .error (.FieldOrder _) => true
  | _ => false

/-- Discriminates the InvalidField error kind on a result. -/
def isInvalidFieldErr {α : Type} : Except BinaryCodecError α → Bool
  | .error (.InvalidField _) => true
  | _ => false

/-- Discriminates the OutOfRange error kind on a result. -/
def isOutOfRangeErr {α : Type} : Except BinaryCodecError α → Bool
  | .error (.OutOfRange _) => true
  | _ => false

/-- Discriminates the InvalidLength error kind on a result. -/
def isInvalidLengthErr {α : Type} : Except BinaryCodecError α → Bool
  | .error (.InvalidLength _) => true
  | _ => false

/- Message strings.  The Rust code builds some of these with format!
interpolation of the offending construct; the interpolated part is dropped
here since only the error kind and the fixed text matter to the claims. -/

def msgOrderWrong : String := "Order of serialized fields is wrong"

def msgVlOutOfRange : String := "Variable length out of range"

def msgFieldTwice : String := "Field appears twice"

def msgFieldOutOfOrder : String := "Field out of order"

def msgInvalidVl : String := "Invalid variable length indicator"

def msgDropsPositiveBit : String := "Drops amount should have positive bit set"

def msgUnknownTypeCode : String := "Unknown type code"

def msgUnknownField : String := "Field with id is not known"

def msgExpectedObject : String := "Expected object type"

def msgExpectedField : String := "Expected field"

def msgExpectedType : String := "Expected type"

def msgWrongTxnType : String := "Wrong transaction type"

def msgNotAscii : String := "Not valid ASCII char"

def msgAccountIdNot20 : String := "AccountID not 20 bytes"

def msgFeeIssued : String := "Fee amount issued token"

def msgFuel : String := "Deserializer loop fuel exhausted"

/-! ### Type codes and field ids (field.rs) -/

/-- Field data type codes with their wire discriminants (field.rs, TypeCode). -/
inductive TypeCode where
  | accountId
  | amount
  | blob
  | hash128
  | hash160
  | hash256
  | uint8
  | uint16
  | uint32
  | uint64
  | array
  | object
deriving DecidableEq, Repr

/-- Numeric discriminant of a type code (the repr(u8) values in field.rs). -/
def TypeCode.disc : TypeCode → Nat
  | .accountId => 8
  | .amount => 6
  | .blob => 7
  | .hash128 => 4
  | .hash160 => 17
  | .hash256 => 5
  | .uint8 => 16
  | .uint16 => 1
  | .uint32 => 2
  | .uint64 => 3
  | .array => 15
  | .object => 14

/-- TypeCode::from_discriminant_opt (field.rs). -/
def TypeCode.fromDiscriminantOpt : Nat → Option TypeCode
  | 8 => some .accountId
  | 6 => some .amount
  | 7 => some .blob
  | 4 => some .hash128
  | 17 => some .hash160
  | 5 => some .hash256
  | 16 => some .uint8
  | 1 => some .uint16
  | 2 => some .uint32
  | 3 => some .uint64
  | 15 => some .array
  | 14 => some .object
  | _ => none

/-- Ordered field id (field.rs, FieldId): a type code together with a field
code (u8, modelled as Nat).  The derived Rust Ord compares the type code by
its discriminant first and the field code second. -/
structure FieldId where
  typeCode : TypeCode
  fieldCode : Nat
deriving DecidableEq, Repr

/-- FieldId::from_type_field (field.rs). -/
def FieldId.fromTypeField (tc : TypeCode) (fc : Nat) : FieldId := ⟨tc, fc⟩

/-- The strict order on field ids: type-code discriminant primary, field
code secondary (derived Ord in field.rs). -/
def FieldId.lt (a b : FieldId) : Prop :=
  a.typeCode.disc < b.typeCode.disc ∨
    (a.typeCode.disc = b.typeCode.disc ∧ a.fieldCode < b.fieldCode)

/-- The non-strict order on field ids. -/
def FieldId.le (a b : FieldId) : Prop := FieldId.lt a b ∨ a = b

instance (a b : FieldId) : Decidable (FieldId.lt a b) := by
  unfold FieldId.lt; infer_instance

instance (a b : FieldId) : Decidable (FieldId.le a b) := by
  unfold FieldId.le; infer_instance

/-- The object end sentinel FieldId(Object, 1). -/
def objectEndId : FieldId := ⟨.object, 1⟩

/-- The array end sentinel FieldId(Array, 1). -/
def arrayEndId : FieldId := ⟨.array, 1⟩

/-! ### Scalar value types

The xrpl_types scalar definitions (amount.rs and friends) are not part of
the sources; they are modelled from the specification, faithful to the call
sites in serializer.rs and deserializer.rs. -/

/-- Fixed 16-byte hash (Hash128). -/
structure Hash128 where
  bytes : List Nat
deriving DecidableEq, Repr

/-- Fixed 20-byte hash (Hash160). -/
structure Hash160 where
  bytes : List Nat
deriving DecidableEq, Repr

/-- Fixed 32-byte hash (Hash256). -/
structure Hash256 where
  bytes : List Nat
deriving DecidableEq, Repr

/-- Variable length byte sequence (Blob). -/
structure Blob where
  bytes : List Nat
deriving DecidableEq, Repr

/-- 20-byte account identifier (AccountId). -/
structure AccountId where
  bytes : List Nat
deriving DecidableEq, Repr

/-- Modelled from the spec: DropsAmount is an unsigned count of XRP drops
bounded by the protocol maximum of 10 ^ 17 drops (100 billion XRP at
10 ^ 6 drops each); the xrpl_types definition is missing from the sources. -/
structure DropsAmount where
  drops : Nat
deriving DecidableEq, Repr

def maxDrops : Nat := 100000000000000000

/-- Modelled from the spec: DropsAmount::from_drops accepts a drops count up
to the protocol maximum and rejects larger values with OutOfRange. -/
def DropsAmount.fromDrops (d : Nat) : Except BinaryCodecError DropsAmount :=
  if d ≤ maxDrops then .ok ⟨d⟩ else .error (.OutOfRange msgVlOutOfRange)

/-- Modelled from the spec: IssuedValue is a signed decimal
mantissa × 10 ^ exponent; mantissa is an i64 (modelled as Int) and exponent
an i8 (modelled as Int); the xrpl_types definition is missing from the
sources. -/
structure IssuedValue where
  mantissa : Int
  exponent : Int
deriving DecidableEq, Repr

/-- The distinguished zero issued value (IssuedValue::zero). -/
def IssuedValue.zero : IssuedValue := ⟨0, 0⟩

def minMantissa : Nat := 1000000000000000

def maxMantissa : Nat := 9999999999999999

/-- Scales the mantissa up by powers of ten until it reaches the normalized
band, decrementing the exponent (fuel-bounded helper for normalization). -/
def scaleUpMantissa : Nat → Int → Int → Int × Int
  | 0, m, e => (m, e)
  | fuel + 1, m, e =>
    if m.natAbs < minMantissa then scaleUpMantissa fuel (m * 10) (e - 1)
    else (m, e)

/-- Modelled from the spec: IssuedValue::from_mantissa_exponent normalizes
mantissa and exponent: a zero mantissa gives the distinguished zero value;
otherwise the mantissa is scaled into [10 ^ 15, 10 ^ 16 - 1] in absolute
value and the exponent must lie in [-96, 80], else OutOfRange. -/
def IssuedValue.fromMantissaExponent (m e : Int) :
    Except BinaryCodecError IssuedValue :=
  if m = 0 then .ok IssuedValue.zero
  else
    let p := scaleUpMantissa 20 m e
    if (minMantissa : Int) ≤ p.1.natAbs ∧ (p.1.natAbs : Int) ≤ maxMantissa ∧
        (-96 : Int) ≤ p.2 ∧ p.2 ≤ 80 then
      .ok ⟨p.1, p.2⟩
    else .error (.OutOfRange msgVlOutOfRange)

/-- Validity of an issued value: the distinguished zero, or a normalized
mantissa with an exponent in the wire range. -/
def IssuedValue.valid (v : IssuedValue) : Prop :=
  (v.mantissa = 0 ∧ v.exponent = 0) ∨
    (minMantissa ≤ v.mantissa.natAbs ∧ v.mantissa.natAbs ≤ maxMantissa ∧
      (-96 : Int) ≤ v.exponent ∧ v.exponent ≤ 80)

instance (v : IssuedValue) : Decidable (IssuedValue.valid v) := by
  unfold IssuedValue.valid; infer_instance

/-- Modelled from the spec: CurrencyCode is XRP (all-zero 20 bytes), a
standard code (three ASCII characters at offsets 12 to 14, rest zero), or a
non-standard code (20 arbitrary bytes with byte 0 nonzero). -/
inductive CurrencyCode where
  | xrp
  | standard (c0 c1 c2 : Nat)
  | nonStandard (bytes : List Nat)
deriving DecidableEq, Repr

/-- Modelled from the spec: IssuedAmount bundles an issued value with a
currency code and an issuer account; construction from its parts
(IssuedAmount::from_issued_value) always succeeds. -/
structure IssuedAmount where
  value : IssuedValue
  currency : CurrencyCode
  issuer : AccountId
deriving DecidableEq, Repr

/-- Amount: drops of XRP or an issued currency amount. -/
inductive Amount where
  | drops (d : DropsAmount)
  | issued (a : IssuedAmount)
deriving DecidableEq, Repr

/-! ### Machine integer helpers -/

/-- Two(s)-complement wrap of an Int into the i8 range [-128, 127]; models
release-mode wrapping of i8 arithmetic. -/
def wrapI8 (x : Int) : Int := (x + 128) % 256 - 128

/-- Cast of an Int to u64 (sign-extending two(s)-complement reinterpretation),
as in Rust numeric casts to u64. -/
def toU64 (x : Int) : Nat := (x % (2 ^ 64 : Int)).toNat

/-- Reinterpretation of a byte-sized Nat as an i8 (Rust cast u8 as i8). -/
def asI8 (n : Nat) : Int :=
  if n % 256 < 128 then (n % 256 : Int) else (n % 256 : Int) - 256

/-! ### Pure value encoders (serializer.rs push functions)

The serializer writes to an infallible Vec sink; the byte sequences pushed
by each push function are modelled as pure functions returning byte lists
(or Except where the push can fail). -/

/-- Big-endian bytes of a u8 (push_uint8). -/
def uint8Bytes (v : Nat) : List Nat := [v % 256]

/-- Big-endian bytes of a u16 (push_uint16, to_be_bytes). -/
def uint16Bytes (v : Nat) : List Nat := [v >>> 8 % 256, v % 256]

/-- Big-endian bytes of a u32 (push_uint32, to_be_bytes). -/
def uint32Bytes (v : Nat) : List Nat :=
  [v >>> 24 % 256, v >>> 16 % 256, v >>> 8 % 256, v % 256]

/-- Big-endian bytes of a u64 (push_uint64, to_be_bytes). -/
def uint64Bytes (v : Nat) : List Nat :=
  [v >>> 56 % 256, v >>> 48 % 256, v >>> 40 % 256, v >>> 32 % 256,
    v >>> 24 % 256, v >>> 16 % 256, v >>> 8 % 256, v % 256]

/-- Field id packing (push_field_id, the four nibble cases). -/
def fieldIdBytes (fid : FieldId) : List Nat :=
  let typeCode := fid.typeCode.disc
  let fieldCode := fid.fieldCode
  if typeCode < 16 ∧ fieldCode < 16 then
    [typeCode <<< 4 ||| fieldCode]
  else if typeCode < 16 then
    [typeCode <<< 4, fieldCode]
  else if fieldCode < 16 then
    [fieldCode, typeCode]
  else
    [0, typeCode, fieldCode]

/-- Variable length prefix encoding (push_vl_prefix); lengths above 918744
are rejected with OutOfRange. -/
def vlPrefixBytes (length : Nat) : Except BinaryCodecError (List Nat) :=
  if length ≤ 192 then
    .ok [length]
  else if length ≤ 12480 then
    let l := length - 193
    .ok [193 + (l >>> 8) % 256, l &&& 255]
  else if length ≤ 918744 then
    let l := length - 12481
    .ok [241 + (l >>> 16) % 256, (l >>> 8) &&& 255, l &&& 255]
  else
    .error (.OutOfRange msgVlOutOfRange)

/-- Drops amount wire word (push_drops_amount): 0x4000000000000000 | drops. -/
def dropsAmountWord (d : DropsAmount) : Nat :=
  0x4000000000000000 ||| d.drops

/-- Issued value wire word (push_issued_value).  The exponent bias addition
(value.exponent() + 97) is i8 arithmetic and the shift by 54 is u64
arithmetic; both wrap, which is modelled explicitly. -/
def issuedValueWord (v : IssuedValue) : Nat :=
  if v.mantissa = 0 then 0x8000000000000000
  else
    let mantissa : Nat := if 0 < v.mantissa then v.mantissa.toNat
      else (-v.mantissa).toNat
    let positive : Bool := 0 < v.mantissa
    let exponent : Nat := toU64 (wrapI8 (v.exponent + 97))
    0x8000000000000000 ||| (if positive then 0x4000000000000000 else 0) |||
      mantissa ||| (exponent <<< 54) % 2 ^ 64

/-- Issued value bytes (push_issued_value): the wire word big-endian. -/
def issuedValueBytes (v : IssuedValue) : List Nat :=
  uint64Bytes (issuedValueWord v)

/-- Currency code bytes (push_currency_code): 20 bytes. -/
def currencyCodeBytes : CurrencyCode → List Nat
  | .xrp => List.replicate 20 0
  | .standard c0 c1 c2 =>
    List.replicate 12 0 ++ [c0, c1, c2] ++ List.replicate 5 0
  | .nonStandard bytes => bytes

/-- Account id bytes with the fixed length prefix 20 (push_account_id). -/
def accountIdBytes (id : AccountId) : List Nat := 20 :: id.bytes

/-- Account id bytes without prefix (push_account_id_no_length_prefix). -/
def accountIdBytesNoPrefix (id : AccountId) : List Nat := id.bytes

/-- Amount bytes (push_amount): the discriminator word, then for issued
amounts the currency code and the unprefixed issuer. -/
def amountBytes : Amount → List Nat
  | .drops d => uint64Bytes (dropsAmountWord d)
  | .issued a =>
    issuedValueBytes a.value ++ currencyCodeBytes a.currency ++
      accountIdBytesNoPrefix a.issuer

/-- Blob bytes (push_blob): vl prefix then the raw bytes. -/
def blobBytes (b : Blob) : Except BinaryCodecError (List Nat) := do
  let p ← vlPrefixBytes b.bytes.length
  return p ++ b.bytes

/-! ### The strict serializer (serializer.rs, Serializer) -/

/-- Serializer state: the output sink (a byte list) and the previously
serialized field id. -/
structure SerState where
  out : List Nat
  prevFieldId : Option FieldId
deriving DecidableEq, Repr

/-- Serializer::new. -/
def SerState.new : SerState := ⟨[], none⟩

/-- Serializer::push_field_id: fails with FieldOrder when the new field id
is not strictly greater than the previously written one; otherwise records
the field id and emits its packed bytes.  Mirroring &mut self, the state is
returned alongside the result and is unchanged on failure. -/
def pushFieldId (fid : FieldId) (st : SerState) :
    Except BinaryCodecError Unit × SerState :=
  match st.prevFieldId with
  | some prev =>
    if FieldId.le fid prev then
      (.error (.FieldOrder msgOrderWrong), st)
    else
      (.ok (), ⟨st.out ++ fieldIdBytes fid, some fid⟩)
  | none => (.ok (), ⟨st.out ++ fieldIdBytes fid, some fid⟩)

/-- Appends failure-free value bytes to the serializer output. -/
def SerState.emit (st : SerState) (bytes : List Nat) : SerState :=
  ⟨st.out ++ bytes, st.prevFieldId⟩

/-- One call of the Serializer trait impl in serializer.rs: each variant
carries the field code and the value of the corresponding serialize_X
method. -/
inductive SerCall where
  | accountId (fc : Nat) (v : AccountId)
  | amount (fc : Nat) (v : Amount)
  | blob (fc : Nat) (v : Blob)
  | hash128 (fc : Nat) (v : Hash128)
  | hash160 (fc : Nat) (v : Hash160)
  | hash256 (fc : Nat) (v : Hash256)
  | uint8 (fc : Nat) (v : Nat)
  | uint16 (fc : Nat) (v : Nat)
  | uint32 (fc : Nat) (v : Nat)
  | uint64 (fc : Nat) (v : Nat)
deriving DecidableEq, Repr

/-- The field id a serialize_X call writes (serialize_X pairs its type code
with the given field code). -/
def SerCall.fieldId : SerCall → FieldId
  | .accountId fc _ => ⟨.accountId, fc⟩
  | .amount fc _ => ⟨.amount, fc⟩
  | .blob fc _ => ⟨.blob, fc⟩
  | .hash128 fc _ => ⟨.hash128, fc⟩
  | .hash160 fc _ => ⟨.hash160, fc⟩
  | .hash256 fc _ => ⟨.hash256, fc⟩
  | .uint8 fc _ => ⟨.uint8, fc⟩
  | .uint16 fc _ => ⟨.uint16, fc⟩
  | .uint32 fc _ => ⟨.uint32, fc⟩
  | .uint64 fc _ => ⟨.uint64, fc⟩

/-- The value bytes a serialize_X call pushes after the field id. -/
def SerCall.valueBytes : SerCall → Except BinaryCodecError (List Nat)
  | .accountId _ v => .ok (accountIdBytes v)
  | .amount _ v => .ok (amountBytes v)
  | .blob _ v => blobBytes v
  | .hash128 _ v => .ok v.bytes
  | .hash160 _ v => .ok v.bytes
  | .hash256 _ v => .ok v.bytes
  | .uint8 _ v => .ok (uint8Bytes v)
  | .uint16 _ v => .ok (uint16Bytes v)
  | .uint32 _ v => .ok (uint32Bytes v)
  | .uint64 _ v => .ok (uint64Bytes v)

/-- Runs one serialize_X call: push_field_id, then the value bytes
(serializer.rs trait impl).  On failure the state is left as the Rust
serializer leaves it. -/
def runSerCall (call : SerCall) (st : SerState) :
    Except BinaryCodecError Unit × SerState :=
  match pushFieldId call.fieldId st with
  | (.error e, st₁) => (.error e, st₁)
  | (.ok (), st₁) =>
    match call.valueBytes with
    | .error e => (.error e, st₁)
    | .ok bytes => (.ok (), st₁.emit bytes)

/-! ### Field registry (field/field_info.rs)

The static field table, verbatim from create_field_name_to_field_id_map.
The inverse map is derived from the forward list. -/

def fieldTable : List (String × FieldId) := [
  ("CloseResolution", FieldId.mk TypeCode.uint8 1),
  ("Method", FieldId.mk TypeCode.uint8 2),
  ("TransactionResult", FieldId.mk TypeCode.uint8 3),
  ("TickSize", FieldId.mk TypeCode.uint8 16),
  ("UNLModifyDisabling", FieldId.mk TypeCode.uint8 17),
  ("HookResult", FieldId.mk TypeCode.uint8 18),
  ("LedgerEntryType", FieldId.mk TypeCode.uint16 1),
  ("TransactionType", FieldId.mk TypeCode.uint16 2),
  ("SignerWeight", FieldId.mk TypeCode.uint16 3),
  ("TransferFee", FieldId.mk TypeCode.uint16 4),
  ("Version", FieldId.mk TypeCode.uint16 16),
  ("HookStateChangeCount", FieldId.mk TypeCode.uint16 17),
  ("HookEmitCount", FieldId.mk TypeCode.uint16 18),
  ("HookExecutionIndex", FieldId.mk TypeCode.uint16 19),
  ("HookApiVersion", FieldId.mk TypeCode.uint16 20),
  ("NetworkID", FieldId.mk TypeCode.uint32 1),
  ("Flags", FieldId.mk TypeCode.uint32 2),
  ("SourceTag", FieldId.mk TypeCode.uint32 3),
  ("Sequence", FieldId.mk TypeCode.uint32 4),
  ("PreviousTxnLgrSeq", FieldId.mk TypeCode.uint32 5),
  ("LedgerSequence", FieldId.mk TypeCode.uint32 6),
  ("CloseTime", FieldId.mk TypeCode.uint32 7),
  ("ParentCloseTime", FieldId.mk TypeCode.uint32 8),
  ("SigningTime", FieldId.mk TypeCode.uint32 9),
  ("Expiration", FieldId.mk TypeCode.uint32 10),
  ("TransferRate", FieldId.mk TypeCode.uint32 11),
  ("WalletSize", FieldId.mk TypeCode.uint32 12),
  ("OwnerCount", FieldId.mk TypeCode.uint32 13),
  ("DestinationTag", FieldId.mk TypeCode.uint32 14),
  ("HighQualityIn", FieldId.mk TypeCode.uint32 16),
  ("HighQualityOut", FieldId.mk TypeCode.uint32 17),
  ("LowQualityIn", FieldId.mk TypeCode.uint32 18),
  ("LowQualityOut", FieldId.mk TypeCode.uint32 19),
  ("QualityIn", FieldId.mk TypeCode.uint32 20),
  ("QualityOut", FieldId.mk TypeCode.uint32 21),
  ("StampEscrow", FieldId.mk TypeCode.uint32 22),
  ("BondAmount", FieldId.mk TypeCode.uint32 23),
  ("LoadFee", FieldId.mk TypeCode.uint32 24),
  ("OfferSequence", FieldId.mk TypeCode.uint32 25),
  ("FirstLedgerSequence", FieldId.mk TypeCode.uint32 26),
  ("LastLedgerSequence", FieldId.mk TypeCode.uint32 27),
  ("TransactionIndex", FieldId.mk TypeCode.uint32 28),
  ("OperationLimit", FieldId.mk TypeCode.uint32 29),
  ("ReferenceFeeUnits", FieldId.mk TypeCode.uint32 30),
  ("ReserveBase", FieldId.mk TypeCode.uint32 31),
  ("ReserveIncrement", FieldId.mk TypeCode.uint32 32),
  ("SetFlag", FieldId.mk TypeCode.uint32 33),
  ("ClearFlag", FieldId.mk TypeCode.uint32 34),
  ("SignerQuorum", FieldId.mk TypeCode.uint32 35),
  ("CancelAfter", FieldId.mk TypeCode.uint32 36),
  ("FinishAfter", FieldId.mk TypeCode.uint32 37),
  ("SignerListID", FieldId.mk TypeCode.uint32 38),
  ("SettleDelay", FieldId.mk TypeCode.uint32 39),
  ("TicketCount", FieldId.mk TypeCode.uint32 40),
  ("TicketSequence", FieldId.mk TypeCode.uint32 41),
  ("NFTokenTaxon", FieldId.mk TypeCode.uint32 42),
  ("MintedNFTokens", FieldId.mk TypeCode.uint32 43),
  ("BurnedNFTokens", FieldId.mk TypeCode.uint32 44),
  ("HookStateCount", FieldId.mk TypeCode.uint32 45),
  ("EmitGeneration", FieldId.mk TypeCode.uint32 46),
  ("IndexNext", FieldId.mk TypeCode.uint64 1),
  ("IndexPrevious", FieldId.mk TypeCode.uint64 2),
  ("BookNode", FieldId.mk TypeCode.uint64 3),
  ("OwnerNode", FieldId.mk TypeCode.uint64 4),
  ("BaseFee", FieldId.mk TypeCode.uint64 5),
  ("ExchangeRate", FieldId.mk TypeCode.uint64 6),
  ("LowNode", FieldId.mk TypeCode.uint64 7),
  ("HighNode", FieldId.mk TypeCode.uint64 8),
  ("DestinationNode", FieldId.mk TypeCode.uint64 9),
  ("Cookie", FieldId.mk TypeCode.uint64 10),
  ("ServerVersion", FieldId.mk TypeCode.uint64 11),
  ("NFTokenOfferNode", FieldId.mk TypeCode.uint64 12),
  ("EmitBurden", FieldId.mk TypeCode.uint64 13),
  ("HookOn", FieldId.mk TypeCode.uint64 16),
  ("HookInstructionCount", FieldId.mk TypeCode.uint64 17),
  ("HookReturnCode", FieldId.mk TypeCode.uint64 18),
  ("ReferenceCount", FieldId.mk TypeCode.uint64 19),
  ("EmailHash", FieldId.mk TypeCode.hash128 1),
  ("TakerPaysCurrency", FieldId.mk TypeCode.hash160 1),
  ("TakerPaysIssuer", FieldId.mk TypeCode.hash160 2),
  ("TakerGetsCurrency", FieldId.mk TypeCode.hash160 3),
  ("TakerGetsIssuer", FieldId.mk TypeCode.hash160 4),
  ("LedgerHash", FieldId.mk TypeCode.hash256 1),
  ("ParentHash", FieldId.mk TypeCode.hash256 2),
  ("TransactionHash", FieldId.mk TypeCode.hash256 3),
  ("AccountHash", FieldId.mk TypeCode.hash256 4),
  ("PreviousTxnID", FieldId.mk TypeCode.hash256 5),
  ("LedgerIndex", FieldId.mk TypeCode.hash256 6),
  ("WalletLocator", FieldId.mk TypeCode.hash256 7),
  ("RootIndex", FieldId.mk TypeCode.hash256 8),
  ("AccountTxnID", FieldId.mk TypeCode.hash256 9),
  ("NFTokenID", FieldId.mk TypeCode.hash256 10),
  ("EmitParentTxnID", FieldId.mk TypeCode.hash256 11),
  ("EmitNonce", FieldId.mk TypeCode.hash256 12),
  ("EmitHookHash", FieldId.mk TypeCode.hash256 13),
  ("BookDirectory", FieldId.mk TypeCode.hash256 16),
  ("InvoiceID", FieldId.mk TypeCode.hash256 17),
  ("Nickname", FieldId.mk TypeCode.hash256 18),
  ("Amendment", FieldId.mk TypeCode.hash256 19),
  ("Digest", FieldId.mk TypeCode.hash256 21),
  ("Channel", FieldId.mk TypeCode.hash256 22),
  ("ConsensusHash", FieldId.mk TypeCode.hash256 23),
  ("CheckID", FieldId.mk TypeCode.hash256 24),
  ("ValidatedHash", FieldId.mk TypeCode.hash256 25),
  ("PreviousPageMin", FieldId.mk TypeCode.hash256 26),
  ("NextPageMin", FieldId.mk TypeCode.hash256 27),
  ("NFTokenBuyOffer", FieldId.mk TypeCode.hash256 28),
  ("NFTokenSellOffer", FieldId.mk TypeCode.hash256 29),
  ("HookStateKey", FieldId.mk TypeCode.hash256 30),
  ("HookHash", FieldId.mk TypeCode.hash256 31),
  ("HookNamespace", FieldId.mk TypeCode.hash256 32),
  ("HookSetTxnID", FieldId.mk TypeCode.hash256 33),
  ("Amount", FieldId.mk TypeCode.amount 1),
  ("Balance", FieldId.mk TypeCode.amount 2),
  ("LimitAmount", FieldId.mk TypeCode.amount 3),
  ("TakerPays", FieldId.mk TypeCode.amount 4),
  ("TakerGets", FieldId.mk TypeCode.amount 5),
  ("LowLimit", FieldId.mk TypeCode.amount 6),
  ("HighLimit", FieldId.mk TypeCode.amount 7),
  ("Fee", FieldId.mk TypeCode.amount 8),
  ("SendMax", FieldId.mk TypeCode.amount 9),
  ("DeliverMin", FieldId.mk TypeCode.amount 10),
  ("MinimumOffer", FieldId.mk TypeCode.amount 16),
  ("RippleEscrow", FieldId.mk TypeCode.amount 17),
  ("DeliveredAmount", FieldId.mk TypeCode.amount 18),
  ("NFTokenBrokerFee", FieldId.mk TypeCode.amount 19),
  ("PublicKey", FieldId.mk TypeCode.blob 1),
  ("MessageKey", FieldId.mk TypeCode.blob 2),
  ("SigningPubKey", FieldId.mk TypeCode.blob 3),
  ("TxnSignature", FieldId.mk TypeCode.blob 4),
  ("URI", FieldId.mk TypeCode.blob 5),
  ("Signature", FieldId.mk TypeCode.blob 6),
  ("Domain", FieldId.mk TypeCode.blob 7),
  ("FundCode", FieldId.mk TypeCode.blob 8),
  ("RemoveCode", FieldId.mk TypeCode.blob 9),
  ("ExpireCode", FieldId.mk TypeCode.blob 10),
  ("CreateCode", FieldId.mk TypeCode.blob 11),
  ("MemoType", FieldId.mk TypeCode.blob 12),
  ("MemoData", FieldId.mk TypeCode.blob 13),
  ("MemoFormat", FieldId.mk TypeCode.blob 14),
  ("Fulfillment", FieldId.mk TypeCode.blob 16),
  ("Condition", FieldId.mk TypeCode.blob 17),
  ("MasterSignature", FieldId.mk TypeCode.blob 18),
  ("UNLModifyValidator", FieldId.mk TypeCode.blob 19),
  ("ValidatorToDisable", FieldId.mk TypeCode.blob 20),
  ("ValidatorToReEnable", FieldId.mk TypeCode.blob 21),
  ("HookStateData", FieldId.mk TypeCode.blob 22),
  ("HookReturnString", FieldId.mk TypeCode.blob 23),
  ("HookParameterName", FieldId.mk TypeCode.blob 24),
  ("HookParameterValue", FieldId.mk TypeCode.blob 25),
  ("Account", FieldId.mk TypeCode.accountId 1),
  ("Owner", FieldId.mk TypeCode.accountId 2),
  ("Destination", FieldId.mk TypeCode.accountId 3),
  ("Issuer", FieldId.mk TypeCode.accountId 4),
  ("Authorize", FieldId.mk TypeCode.accountId 5),
  ("Unauthorize", FieldId.mk TypeCode.accountId 6),
  ("RegularKey", FieldId.mk TypeCode.accountId 8),
  ("NFTokenMinter", FieldId.mk TypeCode.accountId 9),
  ("EmitCallback", FieldId.mk TypeCode.accountId 10),
  ("HookAccount", FieldId.mk TypeCode.accountId 16),
  ("TransactionMetaData", FieldId.mk TypeCode.object 2),
  ("CreatedNode", FieldId.mk TypeCode.object 3),
  ("DeletedNode", FieldId.mk TypeCode.object 4),
  ("ModifiedNode", FieldId.mk TypeCode.object 5),
  ("PreviousFields", FieldId.mk TypeCode.object 6),
  ("FinalFields", FieldId.mk TypeCode.object 7),
  ("NewFields", FieldId.mk TypeCode.object 8),
  ("TemplateEntry", FieldId.mk TypeCode.object 9),
  ("Memo", FieldId.mk TypeCode.object 10),
  ("SignerEntry", FieldId.mk TypeCode.object 11),
  ("NFToken", FieldId.mk TypeCode.object 12),
  ("EmitDetails", FieldId.mk TypeCode.object 13),
  ("Hook", FieldId.mk TypeCode.object 14),
  ("Signer", FieldId.mk TypeCode.object 16),
  ("Majority", FieldId.mk TypeCode.object 18),
  ("DisabledValidator", FieldId.mk TypeCode.object 19),
  ("EmittedTxn", FieldId.mk TypeCode.object 20),
  ("HookExecution", FieldId.mk TypeCode.object 21),
  ("HookDefinition", FieldId.mk TypeCode.object 22),
  ("HookParameter", FieldId.mk TypeCode.object 23),
  ("HookGrant", FieldId.mk TypeCode.object 24),
  ("ObjectEndMarker", FieldId.mk TypeCode.object 1),
  ("Signers", FieldId.mk TypeCode.array 3),
  ("SignerEntries", FieldId.mk TypeCode.array 4),
  ("Template", FieldId.mk TypeCode.array 5),
  ("Necessary", FieldId.mk TypeCode.array 6),
  ("Sufficient", FieldId.mk TypeCode.array 7),
  ("AffectedNodes", FieldId.mk TypeCode.array 8),
  ("Memos", FieldId.mk TypeCode.array 9),
  ("NFTokens", FieldId.mk TypeCode.array 10),
  ("Hooks", FieldId.mk TypeCode.array 11),
  ("Majorities", FieldId.mk TypeCode.array 16),
  ("DisabledValidators", FieldId.mk TypeCode.array 17),
  ("HookExecutions", FieldId.mk TypeCode.array 18),
  ("HookParameters", FieldId.mk TypeCode.array 19),
  ("HookGrants", FieldId.mk TypeCode.array 20),
  ("ArrayEndMarker", FieldId.mk TypeCode.array 1)]

/-- field_info::field_id_by_name. -/
def fieldIdByName (name : String) : Option FieldId :=
  (fieldTable.find? (fun e => e.1 = name)).map (·.2)

/-- field_info::field_name_by_id. -/
def fieldNameById (fid : FieldId) : Option String :=
  (fieldTable.find? (fun e => e.2 = fid)).map (·.1)

/-- deserializer.rs get_field_name: unknown field ids are InvalidField. -/
def getFieldName (fid : FieldId) : Except BinaryCodecError String :=
  match fieldNameById fid with
  | some name => .ok name
  | none => .error (.InvalidField msgUnknownField)

/-! ### The deserializer (deserializer.rs, Deserializer) -/

/-- Deserializer state: the remaining input bytes, the object-mode flag and
the previously read field id. -/
structure DState where
  bytes : List Nat
  objectDeserializer : Bool
  previousFieldId : Option FieldId
deriving DecidableEq, Repr

/-- Deserializer::new. -/
def DState.new (bytes : List Nat) : DState := ⟨bytes, false, none⟩

/-- Deserializer::check_remaining. -/
def checkRemaining (len : Nat) (st : DState) : Except BinaryCodecError Unit :=
  if len ≤ st.bytes.length then .ok ()
  else .error (.InsufficientBytes msgFuel)

/-- Deserializer::read_u8. -/
def readU8 (st : DState) : Except BinaryCodecError (Nat × DState) :=
  match st.bytes with
  | [] => .error (.InsufficientBytes msgFuel)
  | b :: rest => .ok (b, { st with bytes := rest })

/-- Deserializer::read_bytes / read_array: length-checked raw bytes. -/
def readBytes (len : Nat) (st : DState) :
    Except BinaryCodecError (List Nat × DState) := do
  let _ ← checkRemaining len st
  return (st.bytes.take len, { st with bytes := st.bytes.drop len })

/-- Deserializer::read_uint16: two bytes big-endian. -/
def readUint16 (st : DState) : Except BinaryCodecError (Nat × DState) := do
  let (bs, st₁) ← readBytes 2 st
  return (bs.foldl (fun acc b => acc * 256 + b) 0, st₁)

/-- Deserializer::read_uint32: four bytes big-endian. -/
def readUint32 (st : DState) : Except BinaryCodecError (Nat × DState) := do
  let (bs, st₁) ← readBytes 4 st
  return (bs.foldl (fun acc b => acc * 256 + b) 0, st₁)

/-- Deserializer::read_uint64: eight bytes big-endian. -/
def readUint64 (st : DState) : Except BinaryCodecError (Nat × DState) := do
  let (bs, st₁) ← readBytes 8 st
  return (bs.foldl (fun acc b => acc * 256 + b) 0, st₁)

/-- Deserializer::read_h128. -/
def readH128 (st : DState) : Except BinaryCodecError (Hash128 × DState) := do
  let (bs, st₁) ← readBytes 16 st
  return (⟨bs⟩, st₁)

/-- Deserializer::read_h160. -/
def readH160 (st : DState) : Except BinaryCodecError (Hash160 × DState) := do
  let (bs, st₁) ← readBytes 20 st
  return (⟨bs⟩, st₁)

/-- Deserializer::read_h256. -/
def readH256 (st : DState) : Except BinaryCodecError (Hash256 × DState) := do
  let (bs, st₁) ← readBytes 32 st
  return (⟨bs⟩, st₁)

/-- Deserializer::read_vl_prefix: the three length-prefix forms; a first
byte of 255 (or beyond the u8 range) is InvalidLength. -/
def readVlPrefixLen (st : DState) : Except BinaryCodecError (Nat × DState) := do
  let (b1, st₁) ← readU8 st
  if b1 ≤ 192 then
    return (b1, st₁)
  else if b1 ≤ 240 then
    let (b2, st₂) ← readU8 st₁
    return (193 + (b1 - 193) * 256 + b2, st₂)
  else if b1 ≤ 254 then
    let (b2, st₂) ← readU8 st₁
    let (b3, st₃) ← readU8 st₂
    return (12481 + (b1 - 241) * 65536 + b2 * 256 + b3, st₃)
  else
    .error (.InvalidLength msgInvalidVl)

/-- Deserializer::read_blob. -/
def readBlob (st : DState) : Except BinaryCodecError (Blob × DState) := do
  let (count, st₁) ← readVlPrefixLen st
  let (bs, st₂) ← readBytes count st₁
  return (⟨bs⟩, st₂)

/-- Result of read_drops_or_issued_value. -/
inductive DropsOrIssuedValue where
  | drops (d : DropsAmount)
  | issued (v : IssuedValue)
deriving DecidableEq, Repr

/-- AsciiChar::from_ascii in the ascii helper: bytes above 127 are rejected
with OutOfRange. -/
def asciiChar (b : Nat) : Except BinaryCodecError Nat :=
  if b ≤ 127 then .ok b else .error (.OutOfRange msgNotAscii)

/-- Deserializer::read_drops_or_issued_value.  The u64 shifts wrap mod
2 ^ 64, the cast to i8 of the exponent byte reinterprets, and the
subtraction of 97 is wrapping i8 arithmetic (release semantics). -/
def readDropsOrIssuedValue (st : DState) :
    Except BinaryCodecError (DropsOrIssuedValue × DState) := do
  let (value, st₁) ← readUint64 st
  if value &&& 0x8000000000000000 = 0 then
    if value &&& 0x4000000000000000 = 0 then
      .error (.OutOfRange msgDropsPositiveBit)
    else
      match DropsAmount.fromDrops (value ^^^ 0x4000000000000000) with
      | .ok d => return (.drops d, st₁)
      | .error e => .error e
  else
    if value = 0x8000000000000000 then
      return (.issued IssuedValue.zero, st₁)
    else
      let mantissa : Int :=
        ((((value <<< 10) % 2 ^ 64) >>> 10 : Nat) : Int) *
          (if value &&& 0x4000000000000000 ≠ 0 then 1 else -1)
      let exponent : Int :=
        wrapI8 (asI8 (((value <<< 2) % 2 ^ 64) >>> 56) - 97)
      match IssuedValue.fromMantissaExponent mantissa exponent with
      | .ok v => return (.issued v, st₁)
      | .error e => .error e

/-- Deserializer::read_currency_code. -/
def readCurrencyCode (st : DState) :
    Except BinaryCodecError (CurrencyCode × DState) := do
  let (array, st₁) ← readBytes 20 st
  if array = List.replicate 20 0 then
    return (.xrp, st₁)
  else if array.getD 0 0 = 0 then
    let c0 ← asciiChar (array.getD 12 0)
    let c1 ← asciiChar (array.getD 13 0)
    let c2 ← asciiChar (array.getD 14 0)
    return (.standard c0 c1 c2, st₁)
  else
    return (.nonStandard array, st₁)

/-- Deserializer::read_account_id: vl prefix that must equal 20, then the
20 bytes. -/
def readAccountId (st : DState) :
    Except BinaryCodecError (AccountId × DState) := do
  let (len, st₁) ← readVlPrefixLen st
  if len ≠ 20 then
    .error (.OutOfRange msgAccountIdNot20)
  else
    let (bs, st₂) ← readBytes 20 st₁
    return (⟨bs⟩, st₂)

/-- Deserializer::read_account_id_no_length_prefix. -/
def readAccountIdNoPrefix (st : DState) :
    Except BinaryCodecError (AccountId × DState) := do
  let (bs, st₁) ← readBytes 20 st
  return (⟨bs⟩, st₁)

/-- Deserializer::read_amount. -/
def readAmount (st : DState) : Except BinaryCodecError (Amount × DState) := do
  let (v, st₁) ← readDropsOrIssuedValue st
  match v with
  | .drops d => return (.drops d, st₁)
  | .issued issuedValue =>
    let (currency, st₂) ← readCurrencyCode st₁
    let (issuer, st₃) ← readAccountIdNoPrefix st₂
    return (.issued ⟨issuedValue, currency, issuer⟩, st₃)

/-- Deserializer::read_field_id: nibble split of the first byte, extension
bytes for zero nibbles, then type-code resolution (unknown discriminants
are OutOfRange). -/
def readFieldId (st : DState) : Except BinaryCodecError (FieldId × DState) := do
  let (byte, st₁) ← readU8 st
  let typeCodeNibble := byte >>> 4
  let fieldCodeNibble := byte &&& 0b1111
  let (typeCodeNum, st₂) ←
    if typeCodeNibble = 0 then readU8 st₁ else pure (typeCodeNibble, st₁)
  let (fieldCodeNum, st₃) ←
    if fieldCodeNibble = 0 then readU8 st₂ else pure (fieldCodeNibble, st₂)
  match TypeCode.fromDiscriminantOpt typeCodeNum with
  | none => .error (.OutOfRange msgUnknownTypeCode)
  | some tc => return (FieldId.fromTypeField tc fieldCodeNum, st₃)

/-- Deserializer::set_and_check_field_order: duplicate and descending field
ids are FieldOrder errors; otherwise the new id is recorded. -/
def setAndCheckFieldOrder (newFieldId : FieldId) (st : DState) :
    Except BinaryCodecError DState :=
  match st.previousFieldId with
  | some prev =>
    if prev = newFieldId then .error (.FieldOrder msgFieldTwice)
    else if FieldId.lt newFieldId prev then .error (.FieldOrder msgFieldOutOfOrder)
    else .ok { st with previousFieldId := some newFieldId }
  | none => .ok { st with previousFieldId := some newFieldId }

/-! ### Field accessors and the visitor protocol -/

/-- FieldAccessor: the deserializer (by mutable borrow, modelled as the
carried state) together with the resolved type code of the current field. -/
structure FieldAccess where
  state : DState
  typeCode : TypeCode
deriving DecidableEq, Repr

/-- FieldAccessor::check_type: type mismatches are InvalidField. -/
def checkType (acc : FieldAccess) (expected : TypeCode) :
    Except BinaryCodecError Unit :=
  if acc.typeCode ≠ expected then .error (.InvalidField msgExpectedType)
  else .ok ()

/-- FieldAccessor::deserialize_account_id. -/
def accDeserializeAccountId (acc : FieldAccess) :
    Except BinaryCodecError (AccountId × DState) := do
  let _ ← checkType acc .accountId
  readAccountId acc.state

/-- FieldAccessor::deserialize_amount. -/
def accDeserializeAmount (acc : FieldAccess) :
    Except BinaryCodecError (Amount × DState) := do
  let _ ← checkType acc .amount
  readAmount acc.state

/-- FieldAccessor::deserialize_blob. -/
def accDeserializeBlob (acc : FieldAccess) :
    Except BinaryCodecError (Blob × DState) := do
  let _ ← checkType acc .blob
  readBlob acc.state

/-- FieldAccessor::deserialize_hash128. -/
def accDeserializeHash128 (acc : FieldAccess) :
    Except BinaryCodecError (Hash128 × DState) := do
  let _ ← checkType acc .hash128
  readH128 acc.state

/-- FieldAccessor::deserialize_hash160. -/
def accDeserializeHash160 (acc : FieldAccess) :
    Except BinaryCodecError (Hash160 × DState) := do
  let _ ← checkType acc .hash160
  readH160 acc.state

/-- FieldAccessor::deserialize_hash256. -/
def accDeserializeHash256 (acc : FieldAccess) :
    Except BinaryCodecError (Hash256 × DState) := do
  let _ ← checkType acc .hash256
  readH256 acc.state

/-- FieldAccessor::deserialize_uint8. -/
def accDeserializeUint8 (acc : FieldAccess) :
    Except BinaryCodecError (Nat × DState) := do
  let _ ← checkType acc .uint8
  readU8 acc.state

/-- FieldAccessor::deserialize_uint16. -/
def accDeserializeUint16 (acc : FieldAccess) :
    Except BinaryCodecError (Nat × DState) := do
  let _ ← checkType acc .uint16
  readUint16 acc.state

/-- FieldAccessor::deserialize_uint32. -/
def accDeserializeUint32 (acc : FieldAccess) :
    Except BinaryCodecError (Nat × DState) := do
  let _ ← checkType acc .uint32
  readUint32 acc.state

/-- FieldAccessor::deserialize_uint64. -/
def accDeserializeUint64 (acc : FieldAccess) :
    Except BinaryCodecError (Nat × DState) := do
  let _ ← checkType acc .uint64
  readUint64 acc.state

/-- A visitor over deserialized fields (the Visitor trait): visit_field
receives the resolved field name and a field accessor and returns the new
visitor state together with the deserializer state after the typed read it
performed; visit_array receives the name and drives the array deserializer
over the shared state. -/
structure DVisitor (σ : Type) where
  visitField : σ → String → FieldAccess →
    Except BinaryCodecError (σ × DState)
  visitArray : σ → String → DState →
    Except BinaryCodecError (σ × DState)

/-- Deserializer::deserialize, the visitor loop: read a field id, resolve
its name, stop on the object-end sentinel in object mode, enforce field
order, and dispatch arrays to visit_array and value fields to visit_field.
Rust recursion is while-loop shaped; the Lean model uses explicit fuel,
with one unit consumed per field (the top entry point supplies enough fuel
for any input). -/
def deserializeLoop {σ : Type} (V : DVisitor σ) :
    Nat → σ → DState → Except BinaryCodecError (σ × DState)
  | 0, _, _ => .error (.InsufficientBytes msgFuel)
  | fuel + 1, s, st =>
    if st.bytes = [] then .ok (s, st)
    else do
      let (fieldId, st₁) ← readFieldId st
      let fieldName ← getFieldName fieldId
      if fieldId = FieldId.fromTypeField .object 1 ∧ st.objectDeserializer then
        .ok (s, st₁)
      else do
        let st₂ ← setAndCheckFieldOrder fieldId st₁
        if fieldId.typeCode = .array then do
          let (s₁, st₃) ← V.visitArray s fieldName st₂
          deserializeLoop V fuel s₁ st₃
        else do
          let (s₁, st₃) ← V.visitField s fieldName ⟨st₂, fieldId.typeCode⟩
          deserializeLoop V fuel s₁ st₃

/-- Deserializer::deserialize with sufficient fuel for the input. -/
def deserializeVisitor {σ : Type} (V : DVisitor σ) (s : σ) (st : DState) :
    Except BinaryCodecError (σ × DState) :=
  deserializeLoop V (st.bytes.length + 1) s st

/-- Deserializer::deserialize_single_field: read the next field id, resolve
the name, enforce order, and demand the expected name (else InvalidField);
returns the typed accessor. -/
def deserializeSingleField (expectedFieldName : String) (st : DState) :
    Except BinaryCodecError FieldAccess := do
  let (fieldId, st₁) ← readFieldId st
  let fieldName ← getFieldName fieldId
  let st₂ ← setAndCheckFieldOrder fieldId st₁
  if fieldName ≠ expectedFieldName then
    .error (.InvalidField msgExpectedField)
  else
    return ⟨st₂, fieldId.typeCode⟩

/-- ArrayDeserializer::deserialize_object: the array-end sentinel yields
none; otherwise the id must have type code Object (else InvalidField) and
carry the expected name (else InvalidField); the nested object runs with a
fresh deserializer whose object-mode flag is set and whose field-order
scope is empty, after which the outer state resumes with the remaining
bytes.  The nested deserialization itself is passed in as a function (the
generic T::deserialize of the Rust code). -/
def deserializeObjectElem {α : Type}
    (deserT : DState → Except BinaryCodecError (α × DState))
    (expectedFieldName : String) (st : DState) :
    Except BinaryCodecError (Option α × DState) := do
  let (fieldId, st₁) ← readFieldId st
  if fieldId = FieldId.fromTypeField .array 1 then
    return (none, st₁)
  else if fieldId.typeCode ≠ .object then
    .error (.InvalidField msgExpectedObject)
  else do
    let fieldName ← getFieldName fieldId
    if fieldName = expectedFieldName then
      let (object, stInner) ← deserT ⟨st₁.bytes, true, none⟩
      return (some object,
        ⟨stInner.bytes, st₁.objectDeserializer, st₁.previousFieldId⟩)
    else
      .error (.InvalidField msgExpectedField)

/-! ### Transaction objects (xrpl_types transaction module)

TransactionCommon, Memo and OfferCreateTransaction with their visitor-based
deserialization (common.rs and variants/offer_create.rs). -/

/-- A memo attached to a transaction (common.rs, Memo). -/
structure Memo where
  memoType : Blob
  memoData : Blob
  memoFormat : Option Blob
deriving DecidableEq, Repr

/-- Common transaction fields (common.rs, TransactionCommon). -/
structure TransactionCommon where
  account : AccountId
  fee : Option DropsAmount
  sequence : Option Nat
  accountTxnId : Option Hash256
  lastLedgerSequence : Option Nat
  memos : List Memo
  networkId : Option Nat
  sourceTag : Option Nat
  signingPubKey : Option Blob
  ticketSequence : Option Nat
  txnSignature : Option Blob
deriving DecidableEq, Repr

/-- The OfferCreate flag bits (OfferCreateFlags): FullyCanonicalSig,
Passive, ImmediateOrCancel, FillOrKill, Sell. -/
def offerCreateFlagsMask : Nat :=
  0x80000000 ||| 0x00010000 ||| 0x00020000 ||| 0x00040000 ||| 0x00080000

/-- BitFlags::from_bits for OfferCreateFlags: bits outside the flag mask
are rejected (mapped to OutOfRange through DeserError::invalid_value). -/
def offerCreateFlagsFromBits (bits : Nat) : Except BinaryCodecError Nat :=
  if bits &&& (0xFFFFFFFF ^^^ offerCreateFlagsMask) = 0 then .ok bits
  else .error (.OutOfRange msgWrongTxnType)

/-- An OfferCreate transaction (variants/offer_create.rs); flags are the
raw u32 bits of the BitFlags value. -/
structure OfferCreateTransaction where
  common : TransactionCommon
  flags : Nat
  expiration : Option Nat
  offerSequence : Option Nat
  takerGets : Amount
  takerPays : Amount
deriving DecidableEq, Repr

/-- Accumulator of TransactionCommonVisitor (common.rs). -/
structure TransactionCommonVisitorState where
  account : Option AccountId
  fee : Option DropsAmount
  sequence : Option Nat
  accountTxnId : Option Hash256
  lastLedgerSequence : Option Nat
  memos : List Memo
  networkId : Option Nat
  sourceTag : Option Nat
  signingPubKey : Option Blob
  ticketSequence : Option Nat
  txnSignature : Option Blob
deriving DecidableEq, Repr

/-- Default (empty) common visitor state. -/
def TransactionCommonVisitorState.default : TransactionCommonVisitorState :=
  ⟨none, none, none, none, none, [], none, none, none, none, none⟩

/-- TransactionCommonVisitor::visit_field: the named typed reads; fields
with unmatched names are ignored without consuming their value bytes
(the `_ => ()` arm). -/
def commonVisitField (s : TransactionCommonVisitorState) (name : String)
    (acc : FieldAccess) :
    Except BinaryCodecError (TransactionCommonVisitorState × DState) :=
  match name with
  | "NetworkID" => do
    let (v, st) ← accDeserializeUint32 acc
    return ({ s with networkId := some v }, st)
  | "SourceTag" => do
    let (v, st) ← accDeserializeUint32 acc
    return ({ s with sourceTag := some v }, st)
  | "Sequence" => do
    let (v, st) ← accDeserializeUint32 acc
    return ({ s with sequence := some v }, st)
  | "LastLedgerSequence" => do
    let (v, st) ← accDeserializeUint32 acc
    return ({ s with lastLedgerSequence := some v }, st)
  | "TicketSequence" => do
    let (v, st) ← accDeserializeUint32 acc
    return ({ s with ticketSequence := some v }, st)
  | "AccountTxnID" => do
    let (v, st) ← accDeserializeHash256 acc
    return ({ s with accountTxnId := some v }, st)
  | "Fee" => do
    let (v, st) ← accDeserializeAmount acc
    match v with
    | .issued _ => .error (.OutOfRange msgFeeIssued)
    | .drops drops => return ({ s with fee := some drops }, st)
  | "SigningPubKey" => do
    let (v, st) ← accDeserializeBlob acc
    return ({ s with signingPubKey := some v }, st)
  | "TxnSignature" => do
    let (v, st) ← accDeserializeBlob acc
    return ({ s with txnSignature := some v }, st)
  | "Account" => do
    let (v, st) ← accDeserializeAccountId acc
    return ({ s with account := some v }, st)
  | _ => .ok (s, acc.state)

/-- TransactionCommonVisitor::into_transaction_common: Account is required
(MissingField when absent). -/
def intoTransactionCommon (s : TransactionCommonVisitorState) :
    Except BinaryCodecError TransactionCommon :=
  match s.account with
  | none => .error (.MissingField msgExpectedField)
  | some account =>
    .ok ⟨account, s.fee, s.sequence, s.accountTxnId, s.lastLedgerSequence,
      s.memos, s.networkId, s.sourceTag, s.signingPubKey, s.ticketSequence,
      s.txnSignature⟩

/-- Accumulator of the OfferCreate deserialization visitor
(offer_create.rs). -/
structure OfferCreateVisitorState where
  common : TransactionCommonVisitorState
  flags : Nat
  expiration : Option Nat
  offerSequence : Option Nat
  takerGets : Option Amount
  takerPays : Option Amount
deriving DecidableEq, Repr

/-- Default OfferCreate visitor state (BitFlags default is empty). -/
def OfferCreateVisitorState.default : OfferCreateVisitorState :=
  ⟨TransactionCommonVisitorState.default, 0, none, none, none, none⟩

/-- The OfferCreate visitor (offer_create.rs): TransactionType must decode
to the OfferCreate discriminant 7, Flags go through BitFlags::from_bits,
and unmatched fields fall through to the common visitor.  Array fields are
delegated to the common visitor, which does not consume them (its memos
handling is not implemented in the sources). -/
def offerCreateVisitor : DVisitor OfferCreateVisitorState where
  visitField s name acc :=
    match name with
    | "TransactionType" => do
      let (v, st) ← accDeserializeUint16 acc
      if v ≠ 7 then .error (.OutOfRange msgWrongTxnType)
      else return (s, st)
    | "Flags" => do
      let (v, st) ← accDeserializeUint32 acc
      let bits ← offerCreateFlagsFromBits v
      return ({ s with flags := bits }, st)
    | "Expiration" => do
      let (v, st) ← accDeserializeUint32 acc
      return ({ s with expiration := some v }, st)
    | "OfferSequence" => do
      let (v, st) ← accDeserializeUint32 acc
      return ({ s with offerSequence := some v }, st)
    | "TakerPays" => do
      let (v, st) ← accDeserializeAmount acc
      return ({ s with takerPays := some v }, st)
    | "TakerGets" => do
      let (v, st) ← accDeserializeAmount acc
      return ({ s with takerGets := some v }, st)
    | _ => do
      let (c, st) ← commonVisitField s.common name acc
      return ({ s with common := c }, st)
  visitArray s _ st := .ok (s, st)

/-- OfferCreateTransaction::deserialize followed by the final conversion:
runs the visitor over the whole input and requires TakerGets and TakerPays
(offer_create.rs) and Account (common.rs). -/
def offerCreateDeserialize (bytes : List Nat) :
    Except BinaryCodecError OfferCreateTransaction := do
  let (s, _) ← deserializeVisitor offerCreateVisitor
    OfferCreateVisitorState.default (DState.new bytes)
  let common ← intoTransactionCommon s.common
  match s.takerGets, s.takerPays with
  | some takerGets, some takerPays =>
    return ⟨common, s.flags, s.expiration, s.offerSequence, takerGets,
      takerPays⟩
  | none, _ => .error (.MissingField msgExpectedField)
  | _, none => .error (.MissingField msgExpectedField)

/-! ### Name-based object serializer

Modelled from the spec: the serializer used by the transaction objects
(xrpl_types serialize module) looks field ids up by name in the registry
and produces the fields in ascending FieldId order regardless of call order
(section 4.5: the output relies on FieldId ordering, not call order),
failing with FieldOrder on duplicate ids; this glue between the object
protocol and the byte-level encoders is missing from the sources. -/

/-- One buffered field: its id and its encoded value bytes. -/
abbrev FieldBuf : Type := List (FieldId × List Nat)

/-- Inserts a buffered field into a FieldId-sorted buffer. -/
def insertByFieldId (x : FieldId × List Nat) : FieldBuf → FieldBuf
  | [] => [x]
  | y :: ys =>
    if FieldId.lt y.1 x.1 then y :: insertByFieldId x ys else x :: y :: ys

/-- Sorts a field buffer by ascending FieldId. -/
def sortByFieldId (buf : FieldBuf) : FieldBuf :=
  buf.foldr insertByFieldId []

/-- Checks that adjacent field ids are strictly ascending (no duplicates). -/
def strictAscending : FieldBuf → Bool
  | [] => true
  | [_] => true
  | x :: y :: ys => FieldId.lt x.1 y.1 ∧ strictAscending (y :: ys)

/-- Serializes a buffered object: sorts the fields by FieldId, rejects
duplicates with FieldOrder, and emits each field id followed by its value
bytes. -/
def bufIntoBytes (buf : FieldBuf) : Except BinaryCodecError (List Nat) :=
  let sorted := sortByFieldId buf
  if strictAscending sorted then
    .ok (sorted.foldr (fun x acc => fieldIdBytes x.1 ++ x.2 ++ acc) [])
  else .error (.FieldOrder msgOrderWrong)

/-- Adds one named field to the buffer, resolving its id in the registry
(an unknown name is a fatal programming error, surfaced as InvalidField). -/
def bufField (name : String) (bytes : List Nat) (buf : FieldBuf) :
    Except BinaryCodecError FieldBuf :=
  match fieldIdByName name with
  | some fid => .ok (buf ++ [(fid, bytes)])
  | none => .error (.InvalidField msgUnknownField)

/-- Appends an optional named field. -/
def bufOptField (name : String) (bytes? : Option (List Nat)) (buf : FieldBuf) :
    Except BinaryCodecError FieldBuf :=
  match bytes? with
  | none => .ok buf
  | some bytes => bufField name bytes buf

/-- Serialize for Memo (common.rs): MemoType, MemoData and the optional
MemoFormat in canonical order, framed by the Memo object id and the object
end sentinel (section 4.3 array serialization). -/
def memoObjectBytes (m : Memo) : Except BinaryCodecError (List Nat) := do
  let tb ← blobBytes m.memoType
  let db ← blobBytes m.memoData
  let fb ← match m.memoFormat with
    | none => pure []
    | some f => do
      let b ← blobBytes f
      pure (fieldIdBytes (FieldId.fromTypeField .blob 14) ++ b)
  return fieldIdBytes (FieldId.fromTypeField .object 10) ++
    fieldIdBytes (FieldId.fromTypeField .blob 12) ++ tb ++
    fieldIdBytes (FieldId.fromTypeField .blob 13) ++ db ++ fb ++
    fieldIdBytes (FieldId.fromTypeField .object 1)

/-- The Memos array content: each memo object, then the array end
sentinel. -/
def memosArrayBytes (memos : List Memo) :
    Except BinaryCodecError (List Nat) := do
  let objs ← memos.mapM memoObjectBytes
  return objs.foldr (· ++ ·) [] ++ fieldIdBytes (FieldId.fromTypeField .array 1)

/-- Serialize for TransactionCommon (common.rs): the optional common fields
and the required Account, buffered for ordered emission. -/
def commonBufFields (c : TransactionCommon) (buf : FieldBuf) :
    Except BinaryCodecError FieldBuf := do
  let buf ← bufOptField "NetworkID" (c.networkId.map uint32Bytes) buf
  let buf ← bufOptField "SourceTag" (c.sourceTag.map uint32Bytes) buf
  let buf ← bufOptField "Sequence" (c.sequence.map uint32Bytes) buf
  let buf ← bufOptField "LastLedgerSequence"
    (c.lastLedgerSequence.map uint32Bytes) buf
  let buf ← if c.memos.isEmpty then pure buf
    else do
      let ab ← memosArrayBytes c.memos
      bufField "Memos" ab buf
  let buf ← bufOptField "TicketSequence"
    (c.ticketSequence.map uint32Bytes) buf
  let buf ← bufOptField "AccountTxnID" (c.accountTxnId.map (·.bytes)) buf
  let buf ← bufOptField "Fee"
    (c.fee.map (fun d => amountBytes (.drops d))) buf
  let buf ← match c.signingPubKey with
    | none => pure buf
    | some b => do
      let bs ← blobBytes b
      bufField "SigningPubKey" bs buf
  let buf ← match c.txnSignature with
    | none => pure buf
    | some b => do
      let bs ← blobBytes b
      bufField "TxnSignature" bs buf
  bufField "Account" (accountIdBytes c.account) buf

/-- Serialize for OfferCreateTransaction (offer_create.rs): the transaction
type, the common fields, the flags and the variant fields, in the call
order of the source, buffered for ordered emission. -/
def offerCreateBufFields (tx : OfferCreateTransaction) :
    Except BinaryCodecError FieldBuf := do
  let buf ← bufField "TransactionType" (uint16Bytes 7) []
  let buf ← commonBufFields tx.common buf
  let buf ← bufField "Flags" (uint32Bytes tx.flags) buf
  let buf ← bufOptField "Expiration" (tx.expiration.map uint32Bytes) buf
  let buf ← bufOptField "OfferSequence" (tx.offerSequence.map uint32Bytes) buf
  let buf ← bufField "TakerPays" (amountBytes tx.takerPays) buf
  bufField "TakerGets" (amountBytes tx.takerGets) buf

/-- Serializes an OfferCreateTransaction to its canonical bytes. -/
def offerCreateSerialize (tx : OfferCreateTransaction) :
    Except BinaryCodecError (List Nat) := do
  let buf ← offerCreateBufFields tx
  bufIntoBytes buf

/-! ### Well-formedness of wire values and example data -/

instance {ε α : Type} [DecidableEq ε] [DecidableEq α] :
    DecidableEq (Except ε α) := fun a b =>
  match a, b with
  | .ok x, .ok y =>
    if h : x = y then .isTrue (by rw [h])
    else .isFalse (by intro hh; cases hh; exact h rfl)
  | .ok _, .error _ => .isFalse (by intro hh; cases hh)
  | .error _, .ok _ => .isFalse (by intro hh; cases hh)
  | .error e, .error f =>
    if h : e = f then .isTrue (by rw [h])
    else .isFalse (by intro hh; cases hh; exact h rfl)

/-- Well-formedness of a currency code: standard codes hold ASCII
characters, non-standard codes are 20 bytes with a nonzero first byte. -/
def CurrencyCode.wf : CurrencyCode → Prop
  | .xrp => True
  | .standard c0 c1 c2 => c0 ≤ 127 ∧ c1 ≤ 127 ∧ c2 ≤ 127
  | .nonStandard bytes => bytes.length = 20 ∧ bytes.getD 0 0 ≠ 0

instance (c : CurrencyCode) : Decidable (CurrencyCode.wf c) := by
  cases c <;> (unfold CurrencyCode.wf; infer_instance)

/-- Well-formedness of an account id: exactly 20 bytes. -/
def AccountId.wf (id : AccountId) : Prop := id.bytes.length = 20

instance (id : AccountId) : Decidable (AccountId.wf id) := by
  unfold AccountId.wf; infer_instance

/-- Well-formedness of an amount: drops within the protocol maximum, or an
issued amount with a valid value, a well-formed currency and issuer. -/
def Amount.wf : Amount → Prop
  | .drops d => d.drops ≤ maxDrops
  | .issued a => a.value.valid ∧ a.currency.wf ∧ a.issuer.wf

instance (a : Amount) : Decidable (Amount.wf a) := by
  cases a <;> (unfold Amount.wf; infer_instance)

/-- A trivial visitor used to instantiate visitor-generic theorems at
concrete inputs. -/
def unitVisitor : DVisitor Unit where
  visitField s _ acc := .ok (s, acc.state)
  visitArray s _ st := .ok (s, st)

/-- The canonical OfferCreate example blob from xrpl.org (the bytes of the
hex string beginning 120007220008000024001ABED8...). -/
def offerCreateBlob : List Nat := [
  18, 0, 7, 34, 0, 8, 0, 0, 36, 0, 26, 190, 216, 42, 35, 128, 191, 44, 32,
  25, 0, 26, 190, 215, 100, 213, 89, 32, 172, 147, 145, 64, 0, 0, 0, 0, 0,
  0, 0, 0, 0, 0, 0, 0, 0, 85, 83, 68, 0, 0, 0, 0, 0, 10, 32, 179, 200, 95,
  72, 37, 50, 169, 87, 141, 187, 57, 80, 184, 92, 160, 101, 148, 209, 101,
  64, 0, 0, 3, 126, 17, 214, 0, 104, 64, 0, 0, 0, 0, 0, 0, 10, 115, 33, 3,
  238, 131, 187, 67, 37, 71, 136, 92, 33, 150, 52, 161, 188, 64, 122, 157,
  176, 71, 65, 69, 214, 151, 55, 208, 156, 205, 198, 62, 29, 238, 127, 227,
  116, 70, 48, 68, 2, 32, 20, 55, 89, 67, 124, 4, 247, 182, 31, 1, 37, 99,
  175, 233, 13, 141, 175, 196, 110, 134, 3, 94, 29, 150, 90, 156, 237, 40,
  44, 151, 212, 206, 2, 32, 76, 253, 36, 30, 134, 241, 126, 1, 18, 152, 252,
  26, 57, 182, 51, 134, 199, 67, 6, 165, 222, 4, 126, 33, 59, 15, 41, 239,
  164, 87, 28, 44, 129, 20, 221, 118, 72, 63, 172, 222, 226, 110, 96, 216,
  165, 134, 187, 88, 208, 159, 39, 4, 92, 70]

/-- The 20-byte account id denoted by the address
rMBzp8CgpE441cp5PVyA9rpVV7oT8hP3ys. -/
def exampleAccount : AccountId :=
  ⟨[221, 118, 72, 63, 172, 222, 226, 110, 96, 216, 165, 134, 187, 88, 208,
    159, 39, 4, 92, 70]⟩

/-- The 20-byte account id denoted by the address
rvYAfWj5gh67oV6fW32ZzP3Aw4Eubs59B. -/
def exampleIssuer : AccountId :=
  ⟨[10, 32, 179, 200, 95, 72, 37, 50, 169, 87, 141, 187, 57, 80, 184, 92,
    160, 101, 148, 209]⟩

/-- The OfferCreate transaction the example blob decodes to: the issued
taker-pays value 70728 × 10 ^ (-1) USD normalizes to mantissa
7072800000000000 with exponent -12, and the standard currency code USD is
the ASCII bytes 85, 83, 68. -/
def offerCreateExampleTx : OfferCreateTransaction where
  common :=
    { account := exampleAccount
      fee := some ⟨10⟩
      sequence := some 1752792
      accountTxnId := none
      lastLedgerSequence := none
      memos := []
      networkId := none
      sourceTag := none
      signingPubKey := some ⟨[3, 238, 131, 187, 67, 37, 71, 136, 92, 33,
        150, 52, 161, 188, 64, 122, 157, 176, 71, 65, 69, 214, 151, 55, 208,
        156, 205, 198, 62, 29, 238, 127, 227]⟩
      ticketSequence := none
      txnSignature := some ⟨[48, 68, 2, 32, 20, 55, 89, 67, 124, 4, 247,
        182, 31, 1, 37, 99, 175, 233, 13, 141, 175, 196, 110, 134, 3, 94,
        29, 150, 90, 156, 237, 40, 44, 151, 212, 206, 2, 32, 76, 253, 36,
        30, 134, 241, 126, 1, 18, 152, 252, 26, 57, 182, 51, 134, 199, 67,
        6, 165, 222, 4, 126, 33, 59, 15, 41, 239, 164, 87, 28, 44]⟩ }
  flags := 524288
  expiration := some 595640108
  offerSequence := some 1752791
  takerGets := .drops ⟨15000000000⟩
  takerPays := .issued ⟨⟨7072800000000000, -12⟩, .standard 85 83 68,
    exampleIssuer⟩

/-! ### General helper lemmas -/

theorem exceptBindOk {ε α β : Type} (a : α) (f : α → Except ε β) :
    (Except.ok a : Except ε α) >>= f = f a := rfl

theorem exceptBindErr {ε α β : Type} (e : ε) (f : α → Except ε β) :
    (Except.error e : Except ε α) >>= f = Except.error e := rfl

theorem exceptMapOk {ε α β : Type} (g : α → β) (a : α) :
    (g <$> (Except.ok a : Except ε α)) = Except.ok (g a) := rfl

theorem exceptMapErr {ε α β : Type} (g : α → β) (e : ε) :
    (g <$> (Except.error e : Except ε α)) = Except.error e := rfl

theorem exceptPureEq {ε α : Type} (a : α) : (pure a : Except ε α) = Except.ok a := rfl

theorem shiftRight8_eq (n : Nat) : n >>> 8 = n / 256 :=
  Nat.shiftRight_eq_div_pow n 8

theorem shiftRight16_eq (n : Nat) : n >>> 16 = n / 65536 :=
  Nat.shiftRight_eq_div_pow n 16

theorem and255_eq (n : Nat) : n &&& 255 = n % 256 :=
  Nat.and_pow_two_sub_one_eq_mod n 8

/-- Reading a one-byte length prefix. -/
theorem readVl1 (b1 : Nat) (h1 : b1 ≤ 192) (rest : List Nat) (ob : Bool)
    (pf : Option FieldId) :
    readVlPrefixLen ⟨b1 :: rest, ob, pf⟩ = .ok (b1, ⟨rest, ob, pf⟩) := by
  simp only [readVlPrefixLen, readU8, exceptBindOk, exceptPureEq]
  rw [if_pos h1]

/-- Reading a two-byte length prefix. -/
theorem readVl2 (b1 b2 : Nat) (h1 : 192 < b1) (h2 : b1 ≤ 240)
    (rest : List Nat) (ob : Bool) (pf : Option FieldId) :
    readVlPrefixLen ⟨b1 :: b2 :: rest, ob, pf⟩ =
      .ok (193 + (b1 - 193) * 256 + b2, ⟨rest, ob, pf⟩) := by
  simp only [readVlPrefixLen, readU8, exceptBindOk, exceptPureEq]
  rw [if_neg (by omega), if_pos h2]

/-- Reading a three-byte length prefix. -/
theorem readVl3 (b1 b2 b3 : Nat) (h1 : 240 < b1) (h2 : b1 ≤ 254)
    (rest : List Nat) (ob : Bool) (pf : Option FieldId) :
    readVlPrefixLen ⟨b1 :: b2 :: b3 :: rest, ob, pf⟩ =
      .ok (12481 + (b1 - 241) * 65536 + b2 * 256 + b3, ⟨rest, ob, pf⟩) := by
  simp only [readVlPrefixLen, readU8, exceptBindOk, exceptPureEq]
  rw [if_neg (by omega), if_neg (by omega), if_pos h2]

/-- Reading a length prefix whose lead byte is 255 or larger fails. -/
theorem readVl255 (b1 : Nat) (h1 : 254 < b1) (rest : List Nat) (ob : Bool)
    (pf : Option FieldId) :
    readVlPrefixLen ⟨b1 :: rest, ob, pf⟩ =
      .error (.InvalidLength msgInvalidVl) := by
  simp only [readVlPrefixLen, readU8, exceptBindOk, exceptPureEq]
  rw [if_neg (by omega), if_neg (by omega), if_neg (by omega)]

/-! ### Claim C4: variable-length prefix -/

/-- Claim C4: for every integer L in [0, 918744], reading the written
variable-length prefix returns L, and the written prefix is 1 byte for
L up to 192, 2 bytes for L in [193, 12480], 3 bytes for L in
[12481, 918744]; the boundary lengths 0, 1, 192, 193, 12480, 12481 and
918744 encode to the listed byte sequences; writing any L above 918744
fails with OutOfRange, and reading a prefix whose first byte is 255 fails
with InvalidLength. -/
theorem c4_vl_prefix_roundtrip_and_bounds (L : Nat) :
    (L ≤ 918744 →
      ∃ bs, vlPrefixBytes L = .ok bs ∧
        readVlPrefixLen (DState.new bs) = .ok (L, DState.new []) ∧
        bs.length = if L ≤ 192 then 1 else if L ≤ 12480 then 2 else 3) ∧
    (918744 < L → vlPrefixBytes L = .error (.OutOfRange msgVlOutOfRange)) ∧
    (∀ rest ob pf, readVlPrefixLen ⟨255 :: rest, ob, pf⟩ =
      .error (.InvalidLength msgInvalidVl)) ∧
    vlPrefixBytes 0 = .ok [0] ∧ vlPrefixBytes 1 = .ok [1] ∧
    vlPrefixBytes 192 = .ok [192] ∧ vlPrefixBytes 193 = .ok [193, 0] ∧
    vlPrefixBytes 12480 = .ok [240, 255] ∧
    vlPrefixBytes 12481 = .ok [241, 0, 0] ∧
    vlPrefixBytes 918744 = .ok [254, 212, 23] ∧
    vlPrefixBytes 918745 = .error (.OutOfRange msgVlOutOfRange) := by
  refine ⟨?_, ?_, ?_, by decide, by decide, by decide, by decide, by decide,
    by decide, by decide, by decide⟩
  · intro hL
    by_cases h1 : L ≤ 192
    · refine ⟨[L], by simp [vlPrefixBytes, h1], ?_, by simp [h1]⟩
      exact readVl1 L h1 [] false none
    · by_cases h2 : L ≤ 12480
      · refine ⟨[193 + ((L - 193) >>> 8) % 256, (L - 193) &&& 255],
          by simp [vlPrefixBytes, h1, h2], ?_, by simp [h1, h2]⟩
        rw [shiftRight8_eq, and255_eq, DState.new,
          readVl2 _ _ (by omega) (by omega)]
        exact congrArg Except.ok (Prod.ext (by omega) rfl)
      · refine ⟨[241 + ((L - 12481) >>> 16) % 256, ((L - 12481) >>> 8) &&& 255,
            (L - 12481) &&& 255],
            by simp [vlPrefixBytes, h1, h2, hL], ?_, by simp [h1, h2]⟩
        rw [shiftRight16_eq, shiftRight8_eq, and255_eq, and255_eq, DState.new,
          readVl3 _ _ _ (by omega) (by omega)]
        exact congrArg Except.ok (Prod.ext (by omega) rfl)
  · intro hL
    simp only [vlPrefixBytes]
    rw [if_neg (by omega), if_neg (by omega), if_neg (by omega)]
  · intro rest ob pf
    exact readVl255 255 (by omega) rest ob pf

/-- Witness for C4 at the concrete length 300: the encoder produces a
two-byte prefix that reads back as 300. -/
theorem c4_vl_prefix_witness :
    ∃ bs, vlPrefixBytes 300 = .ok bs ∧
      readVlPrefixLen (DState.new bs) = .ok (300, DState.new []) ∧
      bs.length = if (300 : Nat) ≤ 192 then 1
        else if (300 : Nat) ≤ 12480 then 2 else 3 :=
  (c4_vl_prefix_roundtrip_and_bounds 300).1 (by decide)

/-! ### Claim C5: field id packing round-trip -/

set_option maxRecDepth 10000

/-- Claim C5: for every FieldId with a known type code and a field code in
1..255, the encoder packs it by the four-case rule (both codes below 16:
one byte, high nibble type, low nibble field; type below 16 only: type
shifted, then field; field below 16 only: field, then type; both 16 or
more: zero, type, field), and read_field_id applied to those bytes returns
the original FieldId. -/
theorem c5_field_id_roundtrip (tc : TypeCode) (fc : Nat) (h1 : 1 ≤ fc)
    (h2 : fc ≤ 255) :
    (fieldIdBytes ⟨tc, fc⟩ =
      if tc.disc < 16 ∧ fc < 16 then [tc.disc * 16 + fc]
      else if tc.disc < 16 then [tc.disc * 16, fc]
      else if fc < 16 then [fc, tc.disc]
      else [0, tc.disc, fc]) ∧
    readFieldId (DState.new (fieldIdBytes ⟨tc, fc⟩)) =
      .ok (⟨tc, fc⟩, DState.new []) := by
  have key : ∀ tc : TypeCode, ∀ fc : Nat, fc < 256 → 1 ≤ fc →
      (fieldIdBytes ⟨tc, fc⟩ =
        if tc.disc < 16 ∧ fc < 16 then [tc.disc * 16 + fc]
        else if tc.disc < 16 then [tc.disc * 16, fc]
        else if fc < 16 then [fc, tc.disc]
        else [0, tc.disc, fc]) ∧
      readFieldId (DState.new (fieldIdBytes ⟨tc, fc⟩)) =
        .ok (⟨tc, fc⟩, DState.new []) := by
    intro tc
    cases tc <;> decide
  exact key tc fc (by omega) h1

/-- Witness for C5 at the concrete field id (UInt32, 4): its one-byte
packing 0x24 reads back as the same id. -/
theorem c5_field_id_roundtrip_witness :
    readFieldId (DState.new (fieldIdBytes ⟨.uint32, 4⟩)) =
      .ok (⟨.uint32, 4⟩, DState.new []) :=
  (c5_field_id_roundtrip .uint32 4 (by decide) (by decide)).2

/-! ### Claim C1: field order enforcement -/
theorem readU8_preserves {st : DState} {b : Nat} {st' : DState}
    (h : readU8 st = .ok (b, st')) :
    st'.objectDeserializer = st.objectDeserializer ∧
    st'.previousFieldId = st.previousFieldId := by
  cases hb : st.bytes with
  | nil => rw [readU8, hb] at h; cases h
  | cons x xs =>
    rw [readU8, hb] at h
    cases h
    exact ⟨rfl, rfl⟩

theorem readFieldId_preserves {st : DState} {fid : FieldId} {st' : DState}
    (h : readFieldId st = .ok (fid, st')) :
    st'.objectDeserializer = st.objectDeserializer ∧
    st'.previousFieldId = st.previousFieldId := by
  unfold readFieldId at h
  cases h1 : readU8 st with
  | error e => rw [h1, exceptBindErr] at h; cases h
  | ok p =>
    obtain ⟨byte, st₁⟩ := p
    rw [h1, exceptBindOk] at h
    dsimp only at h
    obtain ⟨ho1, hp1⟩ := readU8_preserves h1
    split at h
    · cases h2 : readU8 st₁ with
      | error e => rw [h2, exceptBindErr] at h; cases h
      | ok q =>
        obtain ⟨t, st₂⟩ := q
        rw [h2, exceptBindOk] at h
        dsimp only at h
        obtain ⟨ho2, hp2⟩ := readU8_preserves h2
        split at h
        · cases h3 : readU8 st₂ with
          | error e => rw [h3, exceptBindErr] at h; cases h
          | ok r =>
            obtain ⟨f, st₃⟩ := r
            rw [h3, exceptBindOk] at h
            dsimp only at h
            obtain ⟨ho3, hp3⟩ := readU8_preserves h3
            split at h
            · cases h
            · cases h
              exact ⟨by rw [ho3, ho2, ho1], by rw [hp3, hp2, hp1]⟩
        · rw [exceptPureEq, exceptBindOk] at h
          dsimp only at h
          split at h
          · cases h
          · cases h
            exact ⟨by rw [ho2, ho1], by rw [hp2, hp1]⟩
    · rw [exceptPureEq, exceptBindOk] at h
      dsimp only at h
      split at h
      · cases h2 : readU8 st₁ with
        | error e => rw [h2, exceptBindErr] at h; cases h
        | ok q =>
          obtain ⟨f, st₂⟩ := q
          rw [h2, exceptBindOk] at h
          dsimp only at h
          obtain ⟨ho2, hp2⟩ := readU8_preserves h2
          split at h
          · cases h
          · cases h
            exact ⟨by rw [ho2, ho1], by rw [hp2, hp1]⟩
      · rw [exceptPureEq, exceptBindOk] at h
        dsimp only at h
        split at h
        · cases h
        · cases h
          exact ⟨ho1, hp1⟩

theorem readFieldId_ok_ne_nil {st : DState} {fid : FieldId} {st' : DState}
    (h : readFieldId st = .ok (fid, st')) : st.bytes ≠ [] := by
  intro hb
  have he : readU8 st = .error (.InsufficientBytes msgFuel) := by
    rw [readU8, hb]
  unfold readFieldId at h
  rw [he, exceptBindErr] at h
  cases h

theorem setAndCheckFieldOrder_le_fail {st : DState} {fid prev : FieldId}
    (hprev : st.previousFieldId = some prev) (hle : FieldId.le fid prev) :
    ∃ msg, setAndCheckFieldOrder fid st = .error (.FieldOrder msg) := by
  simp only [setAndCheckFieldOrder, hprev]
  by_cases heq : prev = fid
  · exact ⟨msgFieldTwice, by rw [if_pos heq]⟩
  · have hlt : FieldId.lt fid prev := by
      rcases hle with hlt | heq2
      · exact hlt
      · exact absurd heq2.symm heq
    exact ⟨msgFieldOutOfOrder, by rw [if_neg heq, if_pos hlt]⟩

/-- Claim C1: strict ascending canonical field order is enforced on both
sides.  Encoder: a serialize_X call whose FieldId is less than or equal to
the previously written FieldId fails with FieldOrder.  Decoder: the field
order check fails with FieldOrder on a duplicate or descending id; in
visitor mode the whole deserialization fails with FieldOrder when a
non-sentinel field whose id is less than or equal to the previous one is
read, and likewise for a positional deserialize_single_field read. -/
theorem c1_field_order_enforced_both_sides :
    (∀ (call : SerCall) (st : SerState) (prev : FieldId),
      st.prevFieldId = some prev → FieldId.le call.fieldId prev →
      isFieldOrderErr (runSerCall call st).1 = true) ∧
    (∀ (st : DState) (fid prev : FieldId),
      st.previousFieldId = some prev → FieldId.le fid prev →
      isFieldOrderErr (setAndCheckFieldOrder fid st) = true) ∧
    (∀ (σ : Type) (V : DVisitor σ) (s : σ) (fuel : Nat) (st : DState)
      (fid : FieldId) (st₁ : DState) (name : String) (prev : FieldId),
      readFieldId st = .ok (fid, st₁) → getFieldName fid = .ok name →
      (st.objectDeserializer = true → fid ≠ FieldId.fromTypeField .object 1) →
      st.previousFieldId = some prev → FieldId.le fid prev →
      isFieldOrderErr (deserializeLoop V (fuel + 1) s st) = true) ∧
    (∀ (st : DState) (fid : FieldId) (st₁ : DState) (name : String)
      (prev : FieldId) (expected : String),
      readFieldId st = .ok (fid, st₁) → getFieldName fid = .ok name →
      st.previousFieldId = some prev → FieldId.le fid prev →
      isFieldOrderErr (deserializeSingleField expected st) = true) := by
  refine ⟨?_, ?_, ?_, ?_⟩
  · intro call st prev hprev hle
    simp only [runSerCall, pushFieldId, hprev]
    rw [if_pos hle]
    rfl
  · intro st fid prev hprev hle
    obtain ⟨msg, hfail⟩ := setAndCheckFieldOrder_le_fail hprev hle
    rw [hfail]
    rfl
  · intro σ V s fuel st fid st₁ name prev hread hname hsent hprev hle
    have hne : st.bytes ≠ [] := readFieldId_ok_ne_nil hread
    have hprev₁ : st₁.previousFieldId = some prev :=
      (readFieldId_preserves hread).2.trans hprev
    obtain ⟨msg, hfail⟩ := setAndCheckFieldOrder_le_fail hprev₁ hle
    rw [deserializeLoop]
    rw [if_neg hne, hread, exceptBindOk]
    try dsimp only
    rw [hname, exceptBindOk]
    try dsimp only
    rw [if_neg (fun hand => hsent hand.2 hand.1), hfail, exceptBindErr]
    rfl
  · intro st fid st₁ name prev expected hread hname hprev hle
    have hprev₁ : st₁.previousFieldId = some prev :=
      (readFieldId_preserves hread).2.trans hprev
    obtain ⟨msg, hfail⟩ := setAndCheckFieldOrder_le_fail hprev₁ hle
    unfold deserializeSingleField
    rw [hread, exceptBindOk]
    try dsimp only
    rw [hname, exceptBindOk]
    try dsimp only
    rw [hfail, exceptBindErr]
    rfl

/-- Witness for C1: a duplicate uint32 field id on the encoder, and a
descending field id on the decoder (NetworkID after Flags), each rejected
with FieldOrder. -/
theorem c1_field_order_witness :
    isFieldOrderErr (runSerCall (SerCall.uint32 2 12)
      ⟨[], some ⟨.uint32, 2⟩⟩).1 = true ∧
    isFieldOrderErr (setAndCheckFieldOrder ⟨.uint32, 1⟩
      ⟨[], false, some ⟨.uint32, 2⟩⟩) = true ∧
    isFieldOrderErr (deserializeLoop unitVisitor 2 ()
      ⟨[0x21, 0, 0, 0, 12], false, some ⟨.uint32, 2⟩⟩) = true ∧
    isFieldOrderErr (deserializeSingleField "NetworkID"
      ⟨[0x21, 0, 0, 0, 12], false, some ⟨.uint32, 2⟩⟩) = true := by
  refine ⟨?_, ?_, ?_, ?_⟩
  · exact c1_field_order_enforced_both_sides.1 (SerCall.uint32 2 12)
      ⟨[], some ⟨.uint32, 2⟩⟩ ⟨.uint32, 2⟩ rfl (by decide)
  · exact c1_field_order_enforced_both_sides.2.1
      ⟨[], false, some ⟨.uint32, 2⟩⟩ ⟨.uint32, 1⟩ ⟨.uint32, 2⟩ rfl (by decide)
  · exact c1_field_order_enforced_both_sides.2.2.1 Unit unitVisitor () 1
      ⟨[0x21, 0, 0, 0, 12], false, some ⟨.uint32, 2⟩⟩ ⟨.uint32, 1⟩
      ⟨[0, 0, 0, 12], false, some ⟨.uint32, 2⟩⟩ "NetworkID" ⟨.uint32, 2⟩
      (by decide) (by decide) (by decide) rfl (by decide)
  · exact c1_field_order_enforced_both_sides.2.2.2
      ⟨[0x21, 0, 0, 0, 12], false, some ⟨.uint32, 2⟩⟩ ⟨.uint32, 1⟩
      ⟨[0, 0, 0, 12], false, some ⟨.uint32, 2⟩⟩ "NetworkID" ⟨.uint32, 2⟩
      "NetworkID" (by decide) (by decide) rfl (by decide)

/-! ### Claim C10: encoder FieldOrder failure is atomic -/

theorem fieldId_not_le_of_lt {a b : FieldId} (h : FieldId.lt a b) :
    ¬ FieldId.le b a := by
  rintro (hlt | heq)
  · rcases h with h | ⟨he, h⟩ <;> rcases hlt with h2 | ⟨he2, h2⟩ <;> omega
  · subst heq
    rcases h with h | ⟨-, h⟩ <;> omega

theorem isFieldOrderErr_error_iff {α β : Type} (e : BinaryCodecError) :
    isFieldOrderErr (.error e : Except BinaryCodecError α) =
      isFieldOrderErr (.error e : Except BinaryCodecError β) := by
  cases e <;> rfl

theorem vlPrefixBytes_not_fieldOrder (L : Nat) :
    isFieldOrderErr (vlPrefixBytes L) = false := by
  unfold vlPrefixBytes
  split_ifs <;> rfl

theorem valueBytes_not_fieldOrder (call : SerCall) :
    isFieldOrderErr call.valueBytes = false := by
  cases call with
  | blob fc v =>
    simp only [SerCall.valueBytes, blobBytes]
    cases hv : vlPrefixBytes v.bytes.length with
    | error e =>
      rw [exceptBindErr]
      have := vlPrefixBytes_not_fieldOrder v.bytes.length
      rw [hv] at this
      exact this
    | ok p => rw [exceptBindOk]; rfl
  | _ => rfl

/-- Claim C10 (implicit): a FieldOrder failure on the encoder is atomic:
when a serialize_X call is rejected for field order, no bytes are written
and the recorded last-written FieldId is unchanged (the state is returned
exactly as it was), and any subsequent serialize_X call with a strictly
greater FieldId passes the order check (it is never rejected with
FieldOrder). -/
theorem c10_field_order_failure_atomic (call : SerCall) (st : SerState)
    (prev : FieldId) (hprev : st.prevFieldId = some prev)
    (hle : FieldId.le call.fieldId prev) :
    runSerCall call st = (.error (.FieldOrder msgOrderWrong), st) ∧
    (∀ call₂ : SerCall, FieldId.lt prev call₂.fieldId →
      (pushFieldId call₂.fieldId st).1 = .ok () ∧
      isFieldOrderErr (runSerCall call₂ st).1 = false) := by
  constructor
  · simp only [runSerCall, pushFieldId, hprev]
    rw [if_pos hle]
  · intro call₂ hlt
    have hnle : ¬ FieldId.le call₂.fieldId prev := fieldId_not_le_of_lt hlt
    constructor
    · simp only [pushFieldId, hprev]
      rw [if_neg hnle]
    · simp only [runSerCall, pushFieldId, hprev]
      rw [if_neg hnle]
      dsimp only
      cases hv : call₂.valueBytes with
      | error e =>
        have := valueBytes_not_fieldOrder call₂
        rw [hv] at this
        dsimp only
        rw [isFieldOrderErr_error_iff (β := List Nat) e]
        exact this
      | ok bytes => rfl

/-- Witness for C10: a rejected duplicate uint32 field leaves the state
unchanged and a following uint64 field with a greater id passes the order
check. -/
theorem c10_field_order_atomic_witness :
    runSerCall (SerCall.uint32 2 12) ⟨[], some ⟨.uint32, 2⟩⟩ =
      (.error (.FieldOrder msgOrderWrong), ⟨[], some ⟨.uint32, 2⟩⟩) ∧
    (pushFieldId (SerCall.uint64 1 34).fieldId
      ⟨[], some ⟨.uint32, 2⟩⟩).1 = .ok () ∧
    isFieldOrderErr (runSerCall (SerCall.uint64 1 34)
      ⟨[], some ⟨.uint32, 2⟩⟩).1 = false := by
  have h := c10_field_order_failure_atomic (SerCall.uint32 2 12)
    ⟨[], some ⟨.uint32, 2⟩⟩ ⟨.uint32, 2⟩ rfl (by decide)
  exact ⟨h.1, h.2 (SerCall.uint64 1 34) (by decide)⟩

/-! ### Claim C9: InvalidField on positional and typed mismatches -/

/-- Claim C9: positional decoding and typed access reject mismatches with
InvalidField (distinct from FieldOrder): deserialize_single_field reads
the next field id, enforces ordering, and returns an accessor exactly when
the resolved field name equals the expected one, failing with InvalidField
on a name mismatch; and every typed read on a field accessor fails with
InvalidField whenever the resolved type code differs from the requested
type. -/
theorem c9_invalid_field_mismatches :
    (∀ (st : DState) (fid : FieldId) (st₁ : DState) (name : String)
      (st₂ : DState) (expected : String),
      readFieldId st = .ok (fid, st₁) → getFieldName fid = .ok name →
      setAndCheckFieldOrder fid st₁ = .ok st₂ → name ≠ expected →
      deserializeSingleField expected st =
        .error (.InvalidField msgExpectedField)) ∧
    (∀ (st : DState) (fid : FieldId) (st₁ : DState) (name : String)
      (st₂ : DState),
      readFieldId st = .ok (fid, st₁) → getFieldName fid = .ok name →
      setAndCheckFieldOrder fid st₁ = .ok st₂ →
      deserializeSingleField name st = .ok ⟨st₂, fid.typeCode⟩) ∧
    (∀ (acc : FieldAccess) (expected : TypeCode), acc.typeCode ≠ expected →
      checkType acc expected = .error (.InvalidField msgExpectedType)) ∧
    (∀ acc : FieldAccess, acc.typeCode ≠ .accountId →
      isInvalidFieldErr (accDeserializeAccountId acc) = true) ∧
    (∀ acc : FieldAccess, acc.typeCode ≠ .amount →
      isInvalidFieldErr (accDeserializeAmount acc) = true) ∧
    (∀ acc : FieldAccess, acc.typeCode ≠ .blob →
      isInvalidFieldErr (accDeserializeBlob acc) = true) ∧
    (∀ acc : FieldAccess, acc.typeCode ≠ .hash128 →
      isInvalidFieldErr (accDeserializeHash128 acc) = true) ∧
    (∀ acc : FieldAccess, acc.typeCode ≠ .hash160 →
      isInvalidFieldErr (accDeserializeHash160 acc) = true) ∧
    (∀ acc : FieldAccess, acc.typeCode ≠ .hash256 →
      isInvalidFieldErr (accDeserializeHash256 acc) = true) ∧
    (∀ acc : FieldAccess, acc.typeCode ≠ .uint8 →
      isInvalidFieldErr (accDeserializeUint8 acc) = true) ∧
    (∀ acc : FieldAccess, acc.typeCode ≠ .uint16 →
      isInvalidFieldErr (accDeserializeUint16 acc) = true) ∧
    (∀ acc : FieldAccess, acc.typeCode ≠ .uint32 →
      isInvalidFieldErr (accDeserializeUint32 acc) = true) ∧
    (∀ acc : FieldAccess, acc.typeCode ≠ .uint64 →
      isInvalidFieldErr (accDeserializeUint64 acc) = true) := by
  refine ⟨?_, ?_, ?_, ?_, ?_, ?_, ?_, ?_, ?_, ?_, ?_, ?_, ?_⟩
  · intro st fid st₁ name st₂ expected hread hname hord hne
    unfold deserializeSingleField
    rw [hread, exceptBindOk]
    try dsimp only
    rw [hname, exceptBindOk]
    try dsimp only
    rw [hord, exceptBindOk]
    try dsimp only
    rw [if_pos hne]
  · intro st fid st₁ name st₂ hread hname hord
    unfold deserializeSingleField
    rw [hread, exceptBindOk]
    try dsimp only
    rw [hname, exceptBindOk]
    try dsimp only
    rw [hord, exceptBindOk]
    try dsimp only
    rw [if_neg (by simp)]
    rfl
  · intro acc expected hne
    unfold checkType
    rw [if_pos hne]
  all_goals (
    intro acc hne
    simp only [accDeserializeAccountId, accDeserializeAmount,
      accDeserializeBlob, accDeserializeHash128, accDeserializeHash160,
      accDeserializeHash256, accDeserializeUint8, accDeserializeUint16,
      accDeserializeUint32, accDeserializeUint64, checkType]
    rw [if_pos hne, exceptBindErr]
    rfl)

/-- Witness for C9: a NetworkID field read positionally as Flags is
rejected with InvalidField, a matching read returns the accessor, and a
uint64 read of a uint32 accessor is rejected with InvalidField. -/
theorem c9_invalid_field_witness :
    deserializeSingleField "Flags" (DState.new [0x21, 0, 0, 0, 12]) =
      .error (.InvalidField msgExpectedField) ∧
    deserializeSingleField "NetworkID" (DState.new [0x21, 0, 0, 0, 12]) =
      .ok ⟨⟨[0, 0, 0, 12], false, some ⟨.uint32, 1⟩⟩, .uint32⟩ ∧
    isInvalidFieldErr (accDeserializeUint64
      ⟨⟨[0, 0, 0, 12], false, some ⟨.uint32, 1⟩⟩, .uint32⟩) = true := by
  refine ⟨?_, ?_, ?_⟩
  · exact c9_invalid_field_mismatches.1 (DState.new [0x21, 0, 0, 0, 12])
      ⟨.uint32, 1⟩ ⟨[0, 0, 0, 12], false, none⟩ "NetworkID"
      ⟨[0, 0, 0, 12], false, some ⟨.uint32, 1⟩⟩ "Flags"
      (by decide) (by decide) (by decide) (by decide)
  · exact c9_invalid_field_mismatches.2.1 (DState.new [0x21, 0, 0, 0, 12])
      ⟨.uint32, 1⟩ ⟨[0, 0, 0, 12], false, none⟩ "NetworkID"
      ⟨[0, 0, 0, 12], false, some ⟨.uint32, 1⟩⟩
      (by decide) (by decide) (by decide)
  · exact c9_invalid_field_mismatches.2.2.2.2.2.2.2.2.2.2.2.2
      ⟨⟨[0, 0, 0, 12], false, some ⟨.uint32, 1⟩⟩, .uint32⟩ (by decide)

/-! ### Claim C8: sentinel framing -/

/-- Claim C8: sentinel framing is honored exactly.  In object mode, reading
the field id (Object, 1) ends the object: deserialize returns Ok without
dispatching the field.  During array decoding, deserialize_object returns
none when the next field id is (Array, 1); otherwise the id must have type
code Object (else InvalidField) with the expected field name (else
InvalidField), and the nested object is decoded by the element
deserializer on a fresh scope (object mode set, no previous field id),
after which the outer state resumes. -/
theorem c8_sentinel_framing :
    (∀ (σ : Type) (V : DVisitor σ) (s : σ) (fuel : Nat) (st st₁ : DState),
      st.objectDeserializer = true →
      readFieldId st = .ok (FieldId.fromTypeField .object 1, st₁) →
      deserializeLoop V (fuel + 1) s st = .ok (s, st₁)) ∧
    (∀ (α : Type) (deserT : DState → Except BinaryCodecError (α × DState))
      (expected : String) (st st₁ : DState),
      readFieldId st = .ok (FieldId.fromTypeField .array 1, st₁) →
      deserializeObjectElem deserT expected st = .ok (none, st₁)) ∧
    (∀ (α : Type) (deserT : DState → Except BinaryCodecError (α × DState))
      (expected : String) (st st₁ : DState) (fid : FieldId),
      readFieldId st = .ok (fid, st₁) →
      fid ≠ FieldId.fromTypeField .array 1 → fid.typeCode ≠ .object →
      isInvalidFieldErr (deserializeObjectElem deserT expected st) = true) ∧
    (∀ (α : Type) (deserT : DState → Except BinaryCodecError (α × DState))
      (expected : String) (st st₁ : DState) (fc : Nat),
      readFieldId st = .ok (⟨.object, fc⟩, st₁) →
      getFieldName ⟨.object, fc⟩ = .ok expected →
      deserializeObjectElem deserT expected st =
        match deserT ⟨st₁.bytes, true, none⟩ with
        | .ok p => .ok (some p.1,
            ⟨p.2.bytes, st₁.objectDeserializer, st₁.previousFieldId⟩)
        | .error e => .error e) ∧
    (∀ (α : Type) (deserT : DState → Except BinaryCodecError (α × DState))
      (expected : String) (st st₁ : DState) (fc : Nat) (name : String),
      readFieldId st = .ok (⟨.object, fc⟩, st₁) →
      getFieldName ⟨.object, fc⟩ = .ok name → name ≠ expected →
      isInvalidFieldErr
        (deserializeObjectElem deserT expected st) = true) := by
  refine ⟨?_, ?_, ?_, ?_, ?_⟩
  · intro σ V s fuel st st₁ hobj hread
    have hne : st.bytes ≠ [] := readFieldId_ok_ne_nil hread
    rw [deserializeLoop]
    rw [if_neg hne, hread, exceptBindOk]
    try dsimp only
    rw [show getFieldName (FieldId.fromTypeField .object 1) =
      .ok "ObjectEndMarker" from rfl, exceptBindOk]
    try dsimp only
    rw [if_pos ⟨rfl, hobj⟩]
  · intro α deserT expected st st₁ hread
    unfold deserializeObjectElem
    rw [hread, exceptBindOk]
    try dsimp only
    rw [if_pos rfl]
    rfl
  · intro α deserT expected st st₁ fid hread hne htc
    unfold deserializeObjectElem
    rw [hread, exceptBindOk]
    try dsimp only
    rw [if_neg hne, if_pos htc]
    rfl
  · intro α deserT expected st st₁ fc hread hname
    unfold deserializeObjectElem
    rw [hread, exceptBindOk]
    try dsimp only
    rw [if_neg (by simp [FieldId.fromTypeField]),
      if_neg (by simp), hname, exceptBindOk]
    try dsimp only
    rw [if_pos rfl]
    cases hd : deserT ⟨st₁.bytes, true, none⟩ with
    | error e => rw [exceptBindErr]
    | ok p =>
      obtain ⟨obj, stI⟩ := p
      rw [exceptBindOk]
      rfl
  · intro α deserT expected st st₁ fc name hread hname hnexp
    unfold deserializeObjectElem
    rw [hread, exceptBindOk]
    try dsimp only
    rw [if_neg (by simp [FieldId.fromTypeField]),
      if_neg (by simp), hname, exceptBindOk]
    try dsimp only
    rw [if_neg hnexp]
    rfl

/-- Witness for C8: the object-end sentinel ends an object-mode loop, the
array-end sentinel yields no more elements, a non-object id inside an
array is InvalidField, a Memo object id runs the element deserializer on a
fresh scope, and a wrong object name is InvalidField. -/
theorem c8_sentinel_framing_witness :
    deserializeLoop unitVisitor 1 () ⟨[0xE1], true, none⟩ =
      .ok ((), ⟨[], true, none⟩) ∧
    deserializeObjectElem (fun st => .ok ((), st)) "Memo"
      ⟨[0xF1], false, none⟩ = .ok (none, ⟨[], false, none⟩) ∧
    isInvalidFieldErr (deserializeObjectElem (fun st => .ok ((), st)) "Memo"
      ⟨[0x21], false, none⟩) = true ∧
    deserializeObjectElem (fun st => .ok ((), st)) "Memo"
      ⟨[0xEA], false, none⟩ = .ok (some (), ⟨[], false, none⟩) ∧
    isInvalidFieldErr (deserializeObjectElem (fun st => .ok ((), st))
      "Signer" ⟨[0xEA], false, none⟩) = true := by
  refine ⟨?_, ?_, ?_, ?_, ?_⟩
  · exact c8_sentinel_framing.1 Unit unitVisitor () 0 ⟨[0xE1], true, none⟩
      ⟨[], true, none⟩ rfl (by decide)
  · exact c8_sentinel_framing.2.1 Unit (fun st => .ok ((), st)) "Memo"
      ⟨[0xF1], false, none⟩ ⟨[], false, none⟩ (by decide)
  · exact c8_sentinel_framing.2.2.1 Unit (fun st => .ok ((), st)) "Memo"
      ⟨[0x21], false, none⟩ ⟨[], false, none⟩ ⟨.uint32, 1⟩ (by decide)
      (by decide) (by decide)
  · have h := c8_sentinel_framing.2.2.2.1 Unit (fun st => .ok ((), st))
      "Memo" ⟨[0xEA], false, none⟩ ⟨[], false, none⟩ 10 (by decide)
      (by decide)
    rw [h]
  · exact c8_sentinel_framing.2.2.2.2 Unit (fun st => .ok ((), st))
      "Signer" ⟨[0xEA], false, none⟩ ⟨[], false, none⟩ 10 "Memo"
      (by decide) (by decide) (by decide)

/-! ### Claim C7: the zero issued value on the wire -/

/-- Counterexample to C7: the 64-bit word 0x8040000000000000 (bit 63 set,
zero mantissa bits, nonzero exponent bits) is distinct from
0x8000000000000000 yet decodes to the zero issued value, because
from_mantissa_exponent maps a zero mantissa to the distinguished zero
regardless of the exponent bits. -/
theorem c7_counterexample_nonzero_pattern_decodes_zero :
    readDropsOrIssuedValue (DState.new [0x80, 0x40, 0, 0, 0, 0, 0, 0]) =
      .ok (.issued IssuedValue.zero, DState.new []) ∧
    [0x80, 0x40, 0, 0, 0, 0, 0, 0] ≠ uint64Bytes 0x8000000000000000 := by
  constructor
  · decide
  · decide

/-- Amended C7: the encoder emits exactly the word 0x8000000000000000 for
every issued value with mantissa zero, and that canonical pattern decodes
to the zero issued value; the decoder, however, does not reject
non-canonical zero patterns (see the counterexample). -/
theorem c7_zero_encoding_canonical :
    (∀ v : IssuedValue, v.mantissa = 0 →
      issuedValueBytes v = uint64Bytes 0x8000000000000000) ∧
    readDropsOrIssuedValue (DState.new (uint64Bytes 0x8000000000000000)) =
      .ok (.issued IssuedValue.zero, DState.new []) := by
  constructor
  · intro v hv
    unfold issuedValueBytes issuedValueWord
    rw [if_pos hv]
  · decide

/-- Witness for C7 (amended) at the zero issued value itself. -/
theorem c7_zero_encoding_witness :
    issuedValueBytes IssuedValue.zero = uint64Bytes 0x8000000000000000 :=
  c7_zero_encoding_canonical.1 IssuedValue.zero rfl

/-! ### Claim C3: issued-value exponent overflow breaks the sign bit -/

/-- Exhibit for C3 (code bug): the valid issued value
-10^15 × 10^31 encodes, under wrapping (release) semantics of the i8
addition value.exponent() + 97, to a word whose bit 62 (the positive bit)
is set, and decoding that encoding returns the positive value
+10^15 × 10^31 rather than the original negative one.  (Under checked
debug semantics the same addition panics, so the claimed layout and
round-trip fail either way for exponents of 31 and above with negative
mantissa.) -/
theorem c3_issued_value_sign_overflow :
    IssuedValue.valid ⟨-1000000000000000, 31⟩ ∧
    issuedValueWord ⟨-1000000000000000, 31⟩ &&& 0x4000000000000000 ≠ 0 ∧
    readDropsOrIssuedValue
      (DState.new (issuedValueBytes ⟨-1000000000000000, 31⟩)) =
      .ok (.issued ⟨1000000000000000, 31⟩, DState.new []) ∧
    (⟨1000000000000000, 31⟩ : IssuedValue) ≠ ⟨-1000000000000000, 31⟩ := by
  exact ⟨by decide, by decide, by decide, by decide⟩

/-! ### Claim C2: the canonical OfferCreate example -/

/-- Claim C2: decoding the canonical OfferCreate example blob succeeds and
yields the documented transaction (account rMBzp8CgpE441cp5PVyA9rpVV7oT8hP3ys
as its 20-byte id, taker_gets 15000000000 drops, taker_pays issued USD
70728 × 10 ^ (-1) — normalized mantissa 7072800000000000, exponent -12 —
from issuer rvYAfWj5gh67oV6fW32ZzP3Aw4Eubs59B, fee 10 drops, sequence
1752792, expiration 595640108, flags 524288, offer_sequence 1752791), and
serializing that transaction reproduces the blob byte for byte. -/
theorem c2_offer_create_example_roundtrip :
    offerCreateDeserialize offerCreateBlob = .ok offerCreateExampleTx ∧
    offerCreateSerialize offerCreateExampleTx = .ok offerCreateBlob := by
  constructor
  · decide
  · decide
theorem or_mul_two_pow (k a b : Nat) : (2 ^ k * a) ||| (2 ^ k * b) = 2 ^ k * (a ||| b) := by
  have ha : 2 ^ k * a = a <<< k := by rw [Nat.shiftLeft_eq, Nat.mul_comm]
  have hb : 2 ^ k * b = b <<< k := by rw [Nat.shiftLeft_eq, Nat.mul_comm]
  have hab : 2 ^ k * (a ||| b) = (a ||| b) <<< k := by
    rw [Nat.shiftLeft_eq, Nat.mul_comm]
  rw [ha, hb, hab]
  apply Nat.eq_of_testBit_eq
  intro i
  simp [Nat.testBit_shiftLeft, Nat.testBit_or, Bool.and_or_distrib_left]

theorem or_low_bits (k a b : Nat) (hb : b < 2 ^ k) :
    (2 ^ k * a) ||| b = 2 ^ k * a + b :=
  (Nat.mul_add_lt_is_or hb a).symm

theorem xor_two_pow_cancel {k d : Nat} (hd : d < 2 ^ k) :
    (2 ^ k * 1 + d) ^^^ 2 ^ k = d := by
  rw [← or_low_bits k 1 d hd]
  apply Nat.eq_of_testBit_eq
  intro i
  simp only [Nat.testBit_xor, Nat.testBit_or, Nat.testBit_two_pow,
    Nat.mul_one]
  by_cases h : k = i
  · subst h
    simp [Nat.testBit_lt_two_pow hd]
  · simp [h]

theorem and_two_pow_eq (n i : Nat) :
    n &&& 2 ^ i = (n.testBit i).toNat * 2 ^ i := by
  apply Nat.eq_of_testBit_eq
  intro j
  simp only [Nat.testBit_and, Nat.testBit_two_pow]
  by_cases h : i = j
  · subst h
    cases hb : n.testBit i <;> simp [hb, Nat.testBit_two_pow]
  · cases hb : n.testBit i <;> simp [h]

theorem orHighA (p8 E : Nat) (hp : p8 = 0 ∨ p8 = 256) (hE : E < 256) :
    512 ||| p8 ||| E = 512 + p8 + E := by
  rcases hp with h | h <;> subst h
  · rw [Nat.or_zero]
    have := or_low_bits 9 1 E (by omega)
    simpa using this
  · rw [show (512 ||| 256 : Nat) = 768 from by decide]
    have := or_low_bits 8 3 E hE
    simpa using this

theorem orHighB (p8 E : Nat) (hp : p8 = 0 ∨ p8 = 256) (hE : E < 256) :
    512 ||| p8 ||| (768 + E) = 768 + E := by
  have h768 : (768 ||| E : Nat) = 768 + E := by
    simpa using or_low_bits 8 3 E hE
  rcases hp with h | h <;> subst h
  · rw [Nat.or_zero, ← h768, ← Nat.or_assoc,
      show (512 ||| 768 : Nat) = 768 from by decide]
  · rw [← h768, ← Nat.or_assoc,
      show (512 ||| 256 ||| 768 : Nat) = 768 from by decide]

/-- The issued-value wire word of a valid nonzero value, as a sum of its
bit fields: bit 63, the effective positive bit (set for positive mantissa
or for biased exponents of 128 and above, where the wrapped i8 shift
spills into bit 62), the biased exponent field, and the mantissa. -/
theorem issuedValueWord_normal (m e : Int) (hm : m ≠ 0)
    (hmlo : minMantissa ≤ m.natAbs) (hmhi : m.natAbs ≤ maxMantissa)
    (helo : -96 ≤ e) (hehi : e ≤ 80) :
    issuedValueWord ⟨m, e⟩ =
      2 ^ 63 + (if 0 < m ∨ (128 : Int) ≤ e + 97 then 2 ^ 62 else 0) +
        (e + 97).toNat * 2 ^ 54 + m.natAbs := by
  have hAlt : m.natAbs < 2 ^ 54 := by
    have : maxMantissa < 2 ^ 54 := by decide
    omega
  have hE1 : 1 ≤ (e + 97).toNat := by omega
  have hE177 : (e + 97).toNat ≤ 177 := by omega
  simp only [issuedValueWord]
  rw [if_neg hm]
  dsimp only
  by_cases hE : (128 : Int) ≤ e + 97
  all_goals by_cases hp : 0 < m
  all_goals simp only [decide_eq_true_eq, hp, hE, if_true, if_false,
    or_false, false_or, or_true, true_or, ite_true, ite_false]
  · have hwrap : wrapI8 (e + 97) = e + 97 - 256 := by unfold wrapI8; omega
    have htou : toU64 (e + 97 - 256) = 2 ^ 64 - 256 + (e + 97).toNat := by
      unfold toU64; omega
    rw [hwrap, htou, Nat.shiftLeft_eq,
      show (2 ^ 64 - 256 + (e + 97).toNat) * 2 ^ 54 % 2 ^ 64 =
        2 ^ 54 * (768 + (e + 97).toNat) from by omega,
      show m.toNat = m.natAbs from by omega,
      show (0x8000000000000000 : Nat) = 2 ^ 54 * 512 from by norm_num,
      show (0x4000000000000000 : Nat) = 2 ^ 54 * 256 from by norm_num,
      Nat.or_assoc, Nat.or_comm (m.natAbs), ← Nat.or_assoc,
      or_mul_two_pow, or_mul_two_pow,
      orHighB 256 _ (Or.inr rfl) (by omega),
      or_low_bits 54 _ _ hAlt]
    omega
  · have hwrap : wrapI8 (e + 97) = e + 97 - 256 := by unfold wrapI8; omega
    have htou : toU64 (e + 97 - 256) = 2 ^ 64 - 256 + (e + 97).toNat := by
      unfold toU64; omega
    rw [hwrap, htou, Nat.shiftLeft_eq,
      show (2 ^ 64 - 256 + (e + 97).toNat) * 2 ^ 54 % 2 ^ 64 =
        2 ^ 54 * (768 + (e + 97).toNat) from by omega,
      show (-m).toNat = m.natAbs from by omega,
      show (0x8000000000000000 : Nat) = 2 ^ 54 * 512 from by norm_num,
      show (0 : Nat) = 2 ^ 54 * 0 from by norm_num,
      Nat.or_assoc, Nat.or_comm (m.natAbs), ← Nat.or_assoc,
      or_mul_two_pow, or_mul_two_pow,
      orHighB 0 _ (Or.inl rfl) (by omega),
      or_low_bits 54 _ _ hAlt]
    omega
  · have hwrap : wrapI8 (e + 97) = e + 97 := by unfold wrapI8; omega
    have htou : toU64 (e + 97) = (e + 97).toNat := by unfold toU64; omega
    rw [hwrap, htou, Nat.shiftLeft_eq,
      show (e + 97).toNat * 2 ^ 54 % 2 ^ 64 = 2 ^ 54 * (e + 97).toNat from
        by omega,
      show m.toNat = m.natAbs from by omega,
      show (0x8000000000000000 : Nat) = 2 ^ 54 * 512 from by norm_num,
      show (0x4000000000000000 : Nat) = 2 ^ 54 * 256 from by norm_num,
      Nat.or_assoc, Nat.or_comm (m.natAbs), ← Nat.or_assoc,
      or_mul_two_pow, or_mul_two_pow,
      orHighA 256 _ (Or.inr rfl) (by omega),
      or_low_bits 54 _ _ hAlt]
    omega
  · have hwrap : wrapI8 (e + 97) = e + 97 := by unfold wrapI8; omega
    have htou : toU64 (e + 97) = (e + 97).toNat := by unfold toU64; omega
    rw [hwrap, htou, Nat.shiftLeft_eq,
      show (e + 97).toNat * 2 ^ 54 % 2 ^ 64 = 2 ^ 54 * (e + 97).toNat from
        by omega,
      show (-m).toNat = m.natAbs from by omega,
      show (0x8000000000000000 : Nat) = 2 ^ 54 * 512 from by norm_num,
      show (0 : Nat) = 2 ^ 54 * 0 from by norm_num,
      Nat.or_assoc, Nat.or_comm (m.natAbs), ← Nat.or_assoc,
      or_mul_two_pow, or_mul_two_pow,
      orHighA 0 _ (Or.inl rfl) (by omega),
      or_low_bits 54 _ _ hAlt]
    omega

theorem readUint64_uint64Bytes (w : Nat) (hw : w < 2 ^ 64) (rest : List Nat)
    (ob : Bool) (pf : Option FieldId) :
    readUint64 ⟨uint64Bytes w ++ rest, ob, pf⟩ = .ok (w, ⟨rest, ob, pf⟩) := by
  have hlen : (uint64Bytes w).length = 8 := by simp [uint64Bytes]
  simp only [readUint64, readBytes, checkRemaining]
  rw [if_pos (by simp only [List.length_append, hlen]; omega),
    exceptBindOk, exceptPureEq, exceptBindOk,
    List.take_left' hlen, List.drop_left' hlen]
  try dsimp only
  simp only [uint64Bytes, List.foldl, Nat.shiftRight_eq_div_pow,
    exceptPureEq, Except.ok.injEq, Prod.mk.injEq]
  exact ⟨by omega, trivial⟩

theorem readDropsOrIssuedValue_eq_zeroWord (st st₁ : DState) (w : Nat)
    (hread : readUint64 st = .ok (w, st₁)) (hw : w = 0x8000000000000000) :
    readDropsOrIssuedValue st = .ok (.issued IssuedValue.zero, st₁) := by
  simp only [readDropsOrIssuedValue]
  rw [hread, exceptBindOk]
  dsimp only
  rw [if_neg (by rw [hw, Nat.and_self]; omega), if_pos hw]
  rfl

theorem and_two_pow_div_mod (n i : Nat) :
    n &&& 2 ^ i = n / 2 ^ i % 2 * 2 ^ i := by
  rw [and_two_pow_eq, Nat.toNat_testBit]

theorem readDropsOrIssuedValue_eq_drops (st st₁ : DState) (w d : Nat)
    (hread : readUint64 st = .ok (w, st₁))
    (hw : w = 0x4000000000000000 ||| d) (hd : d ≤ maxDrops) :
    readDropsOrIssuedValue st = .ok (.drops ⟨d⟩, st₁) := by
  have hd62 : d < 2 ^ 62 := by unfold maxDrops at hd; omega
  have hsum : w = 2 ^ 62 + d := by
    rw [hw, show (0x4000000000000000 : Nat) = 2 ^ 62 * 1 from by norm_num,
      or_low_bits 62 1 d hd62, Nat.mul_one]
  have h63 : w &&& 0x8000000000000000 = 0 := by
    rw [show (0x8000000000000000 : Nat) = 2 ^ 63 from by norm_num,
      and_two_pow_div_mod]
    omega
  have h62 : ¬ w &&& 0x4000000000000000 = 0 := by
    rw [show (0x4000000000000000 : Nat) = 2 ^ 62 from by norm_num,
      and_two_pow_div_mod]
    omega
  have hxor : w ^^^ 0x4000000000000000 = d := by
    rw [show (0x4000000000000000 : Nat) = 2 ^ 62 from by norm_num, hsum,
      show (2 : Nat) ^ 62 + d = 2 ^ 62 * 1 + d from by rw [Nat.mul_one]]
    exact xor_two_pow_cancel hd62
  simp only [readDropsOrIssuedValue]
  rw [hread, exceptBindOk]
  dsimp only
  rw [if_pos h63, if_neg h62, hxor,
    show DropsAmount.fromDrops d = .ok ⟨d⟩ from by
      unfold DropsAmount.fromDrops; rw [if_pos hd]]
  rfl

theorem scaleUp_fix (fuel : Nat) (M e : Int) (h : ¬ M.natAbs < minMantissa) :
    scaleUpMantissa (fuel + 1) M e = (M, e) := by
  unfold scaleUpMantissa
  rw [if_neg h]

theorem fromME_normalized (M e : Int) (hM : M ≠ 0)
    (hlo : minMantissa ≤ M.natAbs) (hhi : M.natAbs ≤ maxMantissa)
    (helo : -96 ≤ e) (hehi : e ≤ 80) :
    IssuedValue.fromMantissaExponent M e = .ok ⟨M, e⟩ := by
  have hscale : scaleUpMantissa 20 M e = (M, e) :=
    scaleUp_fix 19 M e (by omega)
  unfold IssuedValue.fromMantissaExponent
  rw [if_neg hM]
  dsimp only
  rw [hscale]
  dsimp only
  rw [if_pos ⟨by exact_mod_cast hlo, by exact_mod_cast hhi, helo, hehi⟩]

theorem readDropsOrIssuedValue_eq_issued (st st₁ : DState) (m e : Int)
    (hread : readUint64 st = .ok (issuedValueWord ⟨m, e⟩, st₁))
    (hm : m ≠ 0) (hmlo : minMantissa ≤ m.natAbs)
    (hmhi : m.natAbs ≤ maxMantissa) (helo : -96 ≤ e) (hehi : e ≤ 80) :
    readDropsOrIssuedValue st =
      .ok (.issued ⟨(if 0 < m ∨ (128 : Int) ≤ e + 97 then (m.natAbs : Int)
        else -(m.natAbs : Int)), e⟩, st₁) := by
  have hword := issuedValueWord_normal m e hm hmlo hmhi helo hehi
  have hA54 : m.natAbs < 2 ^ 54 := by unfold maxMantissa at hmhi; omega
  have hA0 : 0 < m.natAbs := by unfold minMantissa at hmlo; omega
  have hE1 : 1 ≤ (e + 97).toNat := by omega
  have hE177 : (e + 97).toNat ≤ 177 := by omega
  have h63 : ¬ issuedValueWord ⟨m, e⟩ &&& 0x8000000000000000 = 0 := by
    rw [show (0x8000000000000000 : Nat) = 2 ^ 63 from by norm_num,
      and_two_pow_div_mod, hword]
    split <;> omega
  have hz : ¬ issuedValueWord ⟨m, e⟩ = 0x8000000000000000 := by
    rw [hword]
    split <;> omega
  have hmant : ((issuedValueWord ⟨m, e⟩ <<< 10) % 2 ^ 64) >>> 10 = m.natAbs := by
    rw [Nat.shiftLeft_eq, Nat.shiftRight_eq_div_pow, hword]
    split <;> omega
  have hexp : ((issuedValueWord ⟨m, e⟩ <<< 2) % 2 ^ 64) >>> 56 =
      (e + 97).toNat := by
    rw [Nat.shiftLeft_eq, Nat.shiftRight_eq_div_pow, hword]
    split <;> omega
  have hexpE : wrapI8 (asI8 (((issuedValueWord ⟨m, e⟩ <<< 2) % 2 ^ 64) >>> 56)
      - 97) = e := by
    rw [hexp]
    unfold asI8 wrapI8
    split <;> omega
  by_cases hPC : 0 < m ∨ (128 : Int) ≤ e + 97
  · have h62 : issuedValueWord ⟨m, e⟩ &&& 0x4000000000000000 = 2 ^ 62 := by
      rw [show (0x4000000000000000 : Nat) = 2 ^ 62 from by norm_num,
        and_two_pow_div_mod, hword, if_pos hPC]
      omega
    have hfm : IssuedValue.fromMantissaExponent ((m.natAbs : Nat) : Int) e =
        .ok ⟨(m.natAbs : Int), e⟩ :=
      fromME_normalized (m.natAbs : Int) e (by omega)
        (by rw [Int.natAbs_ofNat]; exact hmlo)
        (by rw [Int.natAbs_ofNat]; exact hmhi) helo hehi
    simp only [readDropsOrIssuedValue]
    rw [hread, exceptBindOk]
    dsimp only
    rw [if_neg h63, if_neg hz, h62,
      if_pos (show (2 : Nat) ^ 62 ≠ 0 from by norm_num), hmant, hexpE,
      Int.mul_one, hfm]
    rw [if_pos hPC]
    rfl
  · have h62 : issuedValueWord ⟨m, e⟩ &&& 0x4000000000000000 = 0 := by
      rw [show (0x4000000000000000 : Nat) = 2 ^ 62 from by norm_num,
        and_two_pow_div_mod, hword, if_neg hPC]
      omega
    have hfm : IssuedValue.fromMantissaExponent (-((m.natAbs : Nat) : Int)) e =
        .ok ⟨-(m.natAbs : Int), e⟩ :=
      fromME_normalized (-(m.natAbs : Int)) e (by omega)
        (by rw [Int.natAbs_neg, Int.natAbs_ofNat]; exact hmlo)
        (by rw [Int.natAbs_neg, Int.natAbs_ofNat]; exact hmhi) helo hehi
    simp only [readDropsOrIssuedValue]
    rw [hread, exceptBindOk]
    dsimp only
    rw [if_neg h63, if_neg hz, h62,
      if_neg (show ¬ (0 : Nat) ≠ 0 from by norm_num), hmant, hexpE,
      Int.mul_neg_one, hfm]
    rw [if_neg hPC]
    rfl

theorem issuedValueWord_signFlip (m e : Int) (hm : m ≠ 0)
    (hmlo : minMantissa ≤ m.natAbs) (hmhi : m.natAbs ≤ maxMantissa)
    (helo : -96 ≤ e) (hehi : e ≤ 80) :
    issuedValueWord ⟨(if 0 < m ∨ (128 : Int) ≤ e + 97 then (m.natAbs : Int)
      else -(m.natAbs : Int)), e⟩ = issuedValueWord ⟨m, e⟩ := by
  have hA0 : 0 < m.natAbs := by unfold minMantissa at hmlo; omega
  by_cases hPC : 0 < m ∨ (128 : Int) ≤ e + 97
  · rw [if_pos hPC,
      issuedValueWord_normal (m.natAbs : Int) e (by omega)
        (by rw [Int.natAbs_ofNat]; exact hmlo)
        (by rw [Int.natAbs_ofNat]; exact hmhi) helo hehi,
      issuedValueWord_normal m e hm hmlo hmhi helo hehi,
      Int.natAbs_ofNat,
      if_pos (Or.inl (show (0 : Int) < (m.natAbs : Int) from by omega)),
      if_pos hPC]
  · rw [if_neg hPC,
      issuedValueWord_normal (-(m.natAbs : Int)) e (by omega)
        (by rw [Int.natAbs_neg, Int.natAbs_ofNat]; exact hmlo)
        (by rw [Int.natAbs_neg, Int.natAbs_ofNat]; exact hmhi) helo hehi,
      issuedValueWord_normal m e hm hmlo hmhi helo hehi,
      Int.natAbs_neg, Int.natAbs_ofNat,
      if_neg (show ¬ ((0 : Int) < -(m.natAbs : Int) ∨ (128 : Int) ≤ e + 97)
        from by push_neg at hPC ⊢; exact ⟨by omega, hPC.2⟩),
      if_neg hPC]

theorem readBytes_append (n : Nat) (bs rest : List Nat) (ob : Bool)
    (pf : Option FieldId) (hlen : bs.length = n) :
    readBytes n ⟨bs ++ rest, ob, pf⟩ = .ok (bs, ⟨rest, ob, pf⟩) := by
  simp only [readBytes, checkRemaining]
  rw [if_pos (by simp only [List.length_append, hlen]; omega),
    exceptBindOk]
  try dsimp only
  rw [List.take_left' hlen, List.drop_left' hlen]
  rfl

theorem readAccountIdNoPrefix_bytes (id : AccountId) (hid : id.wf)
    (rest : List Nat) (ob : Bool) (pf : Option FieldId) :
    readAccountIdNoPrefix ⟨id.bytes ++ rest, ob, pf⟩ =
      .ok (id, ⟨rest, ob, pf⟩) := by
  simp only [readAccountIdNoPrefix]
  rw [readBytes_append 20 _ rest ob pf hid, exceptBindOk]
  rfl

theorem readCurrencyCode_bytes (c : CurrencyCode) (hc : c.wf)
    (rest : List Nat) (ob : Bool) (pf : Option FieldId) :
    ∃ c2, readCurrencyCode ⟨currencyCodeBytes c ++ rest, ob, pf⟩ =
        .ok (c2, ⟨rest, ob, pf⟩) ∧
      currencyCodeBytes c2 = currencyCodeBytes c := by
  cases c with
  | xrp =>
    refine ⟨.xrp, ?_, rfl⟩
    simp only [readCurrencyCode, currencyCodeBytes]
    rw [readBytes_append 20 _ rest ob pf (by decide), exceptBindOk]
    dsimp only
    rw [if_pos rfl]
    rfl
  | standard c0 c1 c2 =>
    obtain ⟨h0, h1, h2⟩ := hc
    have hlist : currencyCodeBytes (.standard c0 c1 c2) =
        [0, 0, 0, 0, 0, 0, 0, 0, 0, 0, 0, 0, c0, c1, c2, 0, 0, 0, 0, 0] := rfl
    by_cases hzero : c0 = 0 ∧ c1 = 0 ∧ c2 = 0
    · obtain ⟨e0, e1, e2⟩ := hzero
      subst e0; subst e1; subst e2
      refine ⟨.xrp, ?_, by decide⟩
      simp only [readCurrencyCode]
      rw [hlist, readBytes_append 20 _ rest ob pf (by rfl), exceptBindOk]
      dsimp only
      rw [if_pos (by decide)]
      rfl
    · refine ⟨.standard c0 c1 c2, ?_, rfl⟩
      simp only [readCurrencyCode]
      rw [hlist, readBytes_append 20 _ rest ob pf (by rfl), exceptBindOk]
      dsimp only
      rw [if_neg (show ¬ ([0, 0, 0, 0, 0, 0, 0, 0, 0, 0, 0, 0, c0, c1, c2,
            0, 0, 0, 0, 0] = List.replicate 20 0) from by
          intro hEq
          apply hzero
          refine ⟨?_, ?_, ?_⟩
          · exact congrArg (fun l => l.getD 12 0) hEq
          · exact congrArg (fun l => l.getD 13 0) hEq
          · exact congrArg (fun l => l.getD 14 0) hEq),
        if_pos (show ([0, 0, 0, 0, 0, 0, 0, 0, 0, 0, 0, 0, c0, c1, c2,
          0, 0, 0, 0, 0].getD 0 0) = 0 from rfl)]
      rw [show ([0, 0, 0, 0, 0, 0, 0, 0, 0, 0, 0, 0, c0, c1, c2,
          0, 0, 0, 0, 0].getD 12 0) = c0 from rfl,
        show ([0, 0, 0, 0, 0, 0, 0, 0, 0, 0, 0, 0, c0, c1, c2,
          0, 0, 0, 0, 0].getD 13 0) = c1 from rfl,
        show ([0, 0, 0, 0, 0, 0, 0, 0, 0, 0, 0, 0, c0, c1, c2,
          0, 0, 0, 0, 0].getD 14 0) = c2 from rfl,
        show asciiChar c0 = .ok c0 from by unfold asciiChar; rw [if_pos h0],
        exceptBindOk,
        show asciiChar c1 = .ok c1 from by unfold asciiChar; rw [if_pos h1],
        exceptBindOk,
        show asciiChar c2 = .ok c2 from by unfold asciiChar; rw [if_pos h2],
        exceptBindOk]
      rfl
  | nonStandard bytes =>
    obtain ⟨hlen, hb0⟩ := hc
    refine ⟨.nonStandard bytes, ?_, rfl⟩
    simp only [readCurrencyCode, currencyCodeBytes]
    rw [readBytes_append 20 _ rest ob pf hlen, exceptBindOk]
    dsimp only
    rw [if_neg (show ¬ (bytes = List.replicate 20 0) from by
        intro hEq
        apply hb0
        rw [hEq]
        rfl),
      if_neg hb0]
    rfl

theorem amountBytes_roundtrip (a : Amount) (ha : a.wf) :
    ∃ a2 : Amount, readAmount (DState.new (amountBytes a)) =
      .ok (a2, DState.new []) ∧ amountBytes a2 = amountBytes a := by
  cases a with
  | drops d =>
    obtain ⟨dv⟩ := d
    have hd : dv ≤ maxDrops := ha
    have hd62 : dv < 2 ^ 62 := by unfold maxDrops at hd; omega
    have hw64 : (0x4000000000000000 ||| dv) < 2 ^ 64 := by
      rw [show (0x4000000000000000 : Nat) = 2 ^ 62 * 1 from by norm_num,
        or_low_bits 62 1 dv hd62]
      omega
    have hread : readUint64 ⟨uint64Bytes (0x4000000000000000 ||| dv) ++ [],
        false, none⟩ = .ok ((0x4000000000000000 ||| dv), ⟨[], false, none⟩) :=
      readUint64_uint64Bytes _ hw64 [] false none
    rw [List.append_nil] at hread
    refine ⟨.drops ⟨dv⟩, ?_, rfl⟩
    simp only [readAmount, amountBytes, dropsAmountWord, DState.new]
    rw [readDropsOrIssuedValue_eq_drops _ _ _ dv hread rfl hd, exceptBindOk]
    rfl
  | issued ia =>
    obtain ⟨v, c, iss⟩ := ia
    obtain ⟨hv, hc, his⟩ := ha
    obtain ⟨mv, ev⟩ := v
    obtain ⟨c2, hcur, hc2⟩ := readCurrencyCode_bytes c hc iss.bytes false none
    have hacc := readAccountIdNoPrefix_bytes iss his [] false none
    rw [List.append_nil] at hacc
    have hassoc : amountBytes (.issued ⟨⟨mv, ev⟩, c, iss⟩) =
        uint64Bytes (issuedValueWord ⟨mv, ev⟩) ++
          (currencyCodeBytes c ++ iss.bytes) := by
      simp [amountBytes, issuedValueBytes, accountIdBytesNoPrefix,
        List.append_assoc]
    rcases hv with ⟨hm0, he0⟩ | ⟨hmlo, hmhi, helo, hehi⟩
    · dsimp only at hm0 he0
      subst hm0; subst he0
      have hword : issuedValueWord ⟨0, 0⟩ = 0x8000000000000000 := rfl
      have hread := readUint64_uint64Bytes (issuedValueWord ⟨0, 0⟩)
        (by rw [hword]; norm_num) (currencyCodeBytes c ++ iss.bytes) false none
      have hdec := readDropsOrIssuedValue_eq_zeroWord _ _ _ hread hword
      refine ⟨.issued ⟨IssuedValue.zero, c2, iss⟩, ?_, ?_⟩
      · rw [hassoc]
        simp only [readAmount, DState.new]
        rw [hdec, exceptBindOk]
        dsimp only
        rw [hcur, exceptBindOk]
        dsimp only
        rw [hacc, exceptBindOk]
        rfl
      · simp only [amountBytes, issuedValueBytes, accountIdBytesNoPrefix, hc2]
        rfl
    · dsimp only at hmlo hmhi helo hehi
      have hm : mv ≠ 0 := by unfold minMantissa at hmlo; omega
      have hword := issuedValueWord_normal mv ev hm hmlo hmhi helo hehi
      have hw64 : issuedValueWord ⟨mv, ev⟩ < 2 ^ 64 := by
        have hA54 : mv.natAbs < 2 ^ 54 := by unfold maxMantissa at hmhi; omega
        have hE177 : (ev + 97).toNat ≤ 177 := by omega
        rw [hword]
        split <;> omega
      have hread := readUint64_uint64Bytes _ hw64
        (currencyCodeBytes c ++ iss.bytes) false none
      have hdec := readDropsOrIssuedValue_eq_issued _ _ mv ev hread hm hmlo
        hmhi helo hehi
      refine ⟨.issued ⟨⟨(if 0 < mv ∨ (128 : Int) ≤ ev + 97 then
        (mv.natAbs : Int) else -(mv.natAbs : Int)), ev⟩, c2, iss⟩, ?_, ?_⟩
      · rw [hassoc]
        simp only [readAmount, DState.new]
        rw [hdec, exceptBindOk]
        dsimp only
        rw [hcur, exceptBindOk]
        dsimp only
        rw [hacc, exceptBindOk]
        rfl
      · simp only [amountBytes, issuedValueBytes, accountIdBytesNoPrefix, hc2]
        rw [issuedValueWord_signFlip mv ev hm hmlo hmhi helo hehi]
/-! ### Claim C6: canonicity of accepted wire forms -/

/-- Claim C6 counterexample: the two-byte sequence [0x20, 0x04] is accepted
by read_field_id and decodes to the field id (UInt32, 4), but re-encoding
that id gives the canonical single byte [0x24]; decoding then re-encoding
does not reproduce the accepted input, so the accepted wire form of a field
id is not unique. -/
theorem c6_counterexample_noncanonical_field_id :
    readFieldId (DState.new [32, 4]) =
      .ok (FieldId.mk TypeCode.uint32 4, DState.new []) ∧
    fieldIdBytes (FieldId.mk TypeCode.uint32 4) = [36] ∧
    ([32, 4] : List Nat) ≠ [36] := by
  refine ⟨by decide, by decide, by decide⟩

/-- Claim C6 (amended): decode-then-encode identity holds on the encoder
image rather than on all accepted inputs.  Every packed field id (known
type code, field code 1..255) decodes back to the same id; every written
variable-length prefix for a length up to 918744 reads back as the same
length; and the encoding of every well-formed amount decodes successfully,
consuming all bytes, to an amount with the identical encoding.  (The
decoder also accepts non-canonical forms, e.g. [0x20, 0x04] for the field
id (UInt32, 4), so the identity fails in the other direction.) -/
theorem c6_encoder_image_roundtrip :
    (∀ tc : TypeCode, ∀ fc : Nat, fc < 256 → 1 ≤ fc →
      readFieldId (DState.new (fieldIdBytes ⟨tc, fc⟩)) =
        .ok (⟨tc, fc⟩, DState.new [])) ∧
    (∀ L : Nat, L ≤ 918744 → ∃ bs, vlPrefixBytes L = .ok bs ∧
      readVlPrefixLen (DState.new bs) = .ok (L, DState.new [])) ∧
    (∀ a : Amount, a.wf → ∃ a2, readAmount (DState.new (amountBytes a)) =
      .ok (a2, DState.new []) ∧ amountBytes a2 = amountBytes a) := by
  refine ⟨?_, ?_, amountBytes_roundtrip⟩
  · intro tc
    cases tc <;> decide
  · intro L hL
    by_cases h1 : L ≤ 192
    · exact ⟨[L], by simp [vlPrefixBytes, h1], readVl1 L h1 [] false none⟩
    · by_cases h2 : L ≤ 12480
      · refine ⟨[193 + ((L - 193) >>> 8) % 256, (L - 193) &&& 255],
          by simp [vlPrefixBytes, h1, h2], ?_⟩
        rw [shiftRight8_eq, and255_eq, DState.new,
          readVl2 _ _ (by omega) (by omega)]
        exact congrArg Except.ok (Prod.ext (by omega) rfl)
      · refine ⟨[241 + ((L - 12481) >>> 16) % 256,
            ((L - 12481) >>> 8) &&& 255, (L - 12481) &&& 255],
          by simp [vlPrefixBytes, h1, h2, hL], ?_⟩
        rw [shiftRight16_eq, shiftRight8_eq, and255_eq, and255_eq, DState.new,
          readVl3 _ _ _ (by omega) (by omega)]
        exact congrArg Except.ok (Prod.ext (by omega) rfl)

/-- Witness for the amended C6 at concrete inputs: the field id (UInt32, 4),
the length 300 and the amount of 10 drops each encode to bytes that decode
back canonically. -/
theorem c6_encoder_image_roundtrip_witness :
    readFieldId (DState.new (fieldIdBytes ⟨TypeCode.uint32, 4⟩)) =
      .ok (⟨TypeCode.uint32, 4⟩, DState.new []) ∧
    (∃ bs, vlPrefixBytes 300 = .ok bs ∧
      readVlPrefixLen (DState.new bs) = .ok (300, DState.new [])) ∧
    (∃ a2, readAmount (DState.new (amountBytes (.drops ⟨10⟩))) =
      .ok (a2, DState.new []) ∧
      amountBytes a2 = amountBytes (.drops ⟨10⟩)) :=
  ⟨c6_encoder_image_roundtrip.1 TypeCode.uint32 4 (by decide) (by decide),
   c6_encoder_image_roundtrip.2.1 300 (by decide),
   c6_encoder_image_roundtrip.2.2 (.drops ⟨10⟩) (by decide)⟩
